import Mathlib

/-!
# The `youtube` package of spotitube: result extraction and matching

A shallow embedding of `src/youtube/youtube.go`.

* Go strings are modelled as lists of Unicode code points (`GoString`), which
  covers every valid UTF-8 string; for the ASCII needles used by the package,
  searching and splitting on code points agrees with Go's search on bytes.
  The one byte-level operation of the source, the slice `[:2]`, is taken on
  the UTF-8 encoding (`utf8`), and `Atoi` reads bytes.
* Go `int` is the 64-bit two's complement integer: arithmetic on durations is
  wrapped by `wrapInt`.  The cursor `SelectionPointer` only ever moves below
  the length of a slice, so it is kept as a plain integer.
* A run-time fault (slice index out of range) is an explicit outcome:
  `none` for `IdFromUrl`, `Pull.fault` for `Next`.
* The constants of the `system` package and the `track` package are not part
  of this file of the repository; they are the fields of `System` and `Track`.
-/

namespace Youtube

/-- A Go string, as the list of its code points. -/
abbrev GoString := List Char

/-! ## Package `strings` -/

/-- Go `strings.HasPrefix(s, pre)`. -/
def HasPrefix (s pre : GoString) : Bool := pre.isPrefixOf s

/-- Go `strings.Index(s, substr)`: position of the first occurrence, `none` for -1. -/
def Index : GoString → GoString → Option Nat
  | [], substr => if HasPrefix [] substr then some 0 else none
  | c :: cs, substr =>
    if HasPrefix (c :: cs) substr then some 0
    else (Index cs substr).map (· + 1)

/-- Go `strings.Contains(s, substr)`, that is `Index(s, substr) >= 0`. -/
def Contains (s substr : GoString) : Bool := (Index s substr).isSome

/-- The loop of Go `strings.genSplit` for a non-empty separator: cut at the
first occurrence of `sep`, continue after it.  The loop runs at most
`Count(s, sep)` times and stops as soon as `Index` finds nothing; the first
argument bounds the number of rounds. -/
def genSplit : Nat → GoString → GoString → List GoString
  | 0, s, _ => [s]
  | n + 1, s, sep =>
    match Index s sep with
    | none => [s]
    | some m => s.take m :: genSplit n (s.drop (m + sep.length)) sep

/-- Go `strings.Split(s, sep)`.  An empty separator explodes the string into
its code points; otherwise `genSplit`, for which `len(s)` rounds are always
enough. -/
def Split (s sep : GoString) : List GoString :=
  if sep.isEmpty then s.map (fun c => [c]) else genSplit s.length s sep

/-- The piece of `s` before the first occurrence of `sep`, all of `s` when
there is none: the first element of `Split s sep`. -/
def firstPiece (s sep : GoString) : GoString :=
  match Index s sep with
  | none => s
  | some m => s.take m

/-- Go `unicode.ToLower` as far as ASCII can tell: `A`-`Z` go to `a`-`z`, and the
only two non-ASCII runes whose lower case is ASCII are U+0130 (to `i`) and
U+212A (to `k`).  Every other non-ASCII rune is lowered by Go to a non-ASCII
rune; it is left in place here, which no search for an ASCII text can tell
apart. -/
def toLowerRune (c : Char) : Char :=
  if 65 ≤ c.toNat ∧ c.toNat ≤ 90 then Char.ofNat (c.toNat + 32)
  else if c.toNat = 0x130 then 'i'
  else if c.toNat = 0x212A then 'k'
  else c

/-- Go `strings.ToLower`. -/
def ToLower (s : GoString) : GoString := s.map toLowerRune

/-- Go `unicode.IsSpace`. -/
def isSpace (c : Char) : Bool :=
  let n := c.toNat
  (9 ≤ n && n ≤ 13) || n == 0x20 || n == 0x85 || n == 0xA0 || n == 0x1680 ||
  (0x2000 ≤ n && n ≤ 0x200A) || n == 0x2028 || n == 0x2029 || n == 0x202F ||
  n == 0x205F || n == 0x3000

/-- Go `strings.TrimSpace`. -/
def TrimSpace (s : GoString) : GoString :=
  ((s.dropWhile isSpace).reverse.dropWhile isSpace).reverse

/-! ## Bytes, `strconv` and `int` -/

/-- The UTF-8 encoding of one code point. -/
def utf8Rune (c : Char) : List Nat :=
  let v := c.toNat
  if v ≤ 0x7F then [v]
  else if v ≤ 0x7FF then [0xC0 + v / 64, 0x80 + v % 64]
  else if v ≤ 0xFFFF then [0xE0 + v / 4096, 0x80 + v / 64 % 64, 0x80 + v % 64]
  else [0xF0 + v / 262144, 0x80 + v / 4096 % 64, 0x80 + v / 64 % 64, 0x80 + v % 64]

/-- The bytes of a Go string. -/
def utf8 : GoString → List Nat
  | [] => []
  | c :: cs => utf8Rune c ++ utf8 cs

/-- Go slice expression `s[:n]` on the bytes of a string: it faults (`none`)
when `n > len(s)`. -/
def sliceTo (b : List Nat) (n : Nat) : Option (List Nat) :=
  if n ≤ b.length then some (b.take n) else none

/-- Smallest value of a Go `int`. -/
def minInt : Int := -(2 ^ 63)

/-- Largest value of a Go `int`. -/
def maxInt : Int := 2 ^ 63 - 1

/-- Two's complement wrap-around of Go `int` arithmetic. -/
def wrapInt (x : Int) : Int := (x + 2 ^ 63) % 2 ^ 64 - 2 ^ 63

/-- The digit loop of `strconv.Atoi`: every byte must be `0`..`9`. -/
def digitsValue (acc : Nat) : List Nat → Option Nat
  | [] => some acc
  | b :: bs => if 48 ≤ b ∧ b ≤ 57 then digitsValue (acc * 10 + (b - 48)) bs else none

/-- Go `strconv.Atoi`: an optional sign, then at least one decimal digit, and
the value must fit an `int`; `none` stands for a non-nil error. -/
def Atoi (s : List Nat) : Option Int :=
  let neg : Bool := match s with
    | 45 :: _ => true
    | _ => false
  let ds : List Nat := match s with
    | 45 :: r => r
    | 43 :: r => r
    | _ => s
  if ds.isEmpty then none
  else
    match digitsValue 0 ds with
    | none => none
    | some n =>
      let v : Int := if neg then -(n : Int) else (n : Int)
      if minInt ≤ v ∧ v ≤ maxInt then some v else none

/-- Go conversion `float64(x)` of an `int`: the nearest double, ties to even.
The value of that double is an integer, and is returned as such. -/
def float64 (x : Int) : Int :=
  let a := x.natAbs
  if a ≤ 2 ^ 53 then x
  else
    let e := Nat.log2 a - 52
    let q := a / 2 ^ e
    let r := a % 2 ^ e
    let half := 2 ^ (e - 1)
    let q1 := if half < r ∨ (r = half ∧ q % 2 = 1) then q + 1 else q
    Int.sign x * ((q1 * 2 ^ e : Nat) : Int)

/-- Go conversion `int(f)` of an integer-valued double.  A value outside the
range of `int` is converted to the smallest `int`, as amd64 does (the language
leaves that case to the implementation). -/
def intOfFloat (f : Int) : Int :=
  if minInt ≤ f ∧ f ≤ maxInt then f else minInt

/-- Decimal digit as a character. -/
def digitChar (d : Nat) : Char := Char.ofNat (48 + d)

/-- Digits of `n`, most significant first, put in front of `acc`. -/
def decimalAux : Nat → Nat → GoString → GoString
  | 0, _, acc => acc
  | fuel + 1, n, acc =>
    if n / 10 = 0 then digitChar (n % 10) :: acc
    else decimalAux fuel (n / 10) (digitChar (n % 10) :: acc)

/-- Decimal numeral of a natural number, as `%d` prints it. -/
def decimal (n : Nat) : GoString := decimalAux (n + 1) n []

/-- Go `%d` of an `int`. -/
def formatInt (i : Int) : GoString :=
  if i < 0 then '-' :: decimal i.natAbs else decimal i.natAbs

/-- Go `strconv.FormatBool`. -/
def FormatBool (b : Bool) : GoString := if b then "true".toList else "false".toList

/-! ## Data model -/

/-- Constants of package `system` used by the source. -/
structure System where
  /-- Text put in front of an entry's `href`. -/
  YOUTUBE_VIDEO_PREFIX : GoString
  /-- Largest tolerated difference of durations, in seconds. -/
  YOUTUBE_DURATION_TOLERANCE : Int
  /-- The query of a search text: `fmt.Sprintf(YOUTUBE_QUERY_PATTERN, text)`. -/
  queryString : GoString → GoString

/-- The `track.Track` of the caller, as far as this package reads it. -/
structure Track where
  /-- Search text. -/
  SearchPattern : GoString
  /-- Expected duration in seconds. -/
  Duration : Int
  /-- Title similarity: `none` for a nil error, else the error's text. -/
  Seems : GoString → Option GoString

/-- One node of the link selection, with its two attributes as
`Selection.Attr` reports them. -/
structure LinkNode where
  /-- Attribute `href`, when present. -/
  href : Option GoString
  /-- Attribute `title`, when present. -/
  title : Option GoString
deriving DecidableEq

/-- What the three `doc.Find` calls of `QueryTracks` select in a fetched
document, in document order. -/
structure Document where
  /-- Nodes of `YOUTUBE_VIDEO_SELECTOR`. -/
  video : List LinkNode
  /-- For each node of `YOUTUBE_DESC_SELECTOR`, the text of its `a` descendants. -/
  desc : List GoString
  /-- For each node of `YOUTUBE_DURATION_SELECTOR`, its text. -/
  duration : List GoString

/-- Go struct `YouTubeTracks`. -/
structure YouTubeTracks where
  /-- The track searched for. -/
  Track : Track
  /-- Link and title entries. -/
  Selection : List LinkNode
  /-- Uploader description entries. -/
  SelectionDesc : List GoString
  /-- Duration entries. -/
  SelectionDuration : List GoString
  /-- The cursor. -/
  SelectionPointer : Int

/-- Go struct `YouTubeTrack`. -/
structure YouTubeTrack where
  /-- The track searched for. -/
  Track : Track
  /-- Video identifier. -/
  ID : GoString
  /-- Video address. -/
  URL : GoString
  /-- Title of the entry. -/
  Title : GoString
  /-- Uploader of the entry. -/
  User : GoString
  /-- Duration in seconds. -/
  Duration : Int

/-- The errors built by the package, one constructor per `errors.New`. -/
inductive Error where
  /-- "Cannot retrieve doc from ..." -/
  | cannotRetrieve (query reason : GoString)
  /-- "Non-standard YouTube video entry structure: ..." -/
  | nonStandard (url title user duration : Bool)
  /-- "Playlist URL found: ..." -/
  | playlistURL (href : GoString)
  /-- "Advertising URL found: ..." -/
  | advertisingURL (href : GoString)
  /-- "No more results left on page." -/
  | noMoreResults
  /-- "The duration difference is excessive: ..." -/
  | durationExcessive (trackDuration youtubeDuration delta tolerance : Int)
  /-- "Track is actually pointing to playlist or user." -/
  | playlistOrUser
  /-- The error returned by `track.Seems`, handed on unchanged. -/
  | seems (text : GoString)
  /-- "URL ... doesn't seem to be pointing to any YouTube video." -/
  | notVideo (url : GoString)
deriving DecidableEq

/-- The text of an error (Go `err.Error()`). -/
def Error.message : Error → GoString
  | .cannotRetrieve query reason =>
    "Cannot retrieve doc from \"".toList ++ query ++ "\": ".toList ++ reason
  | .nonStandard url title user duration =>
    "Non-standard YouTube video entry structure: url is ".toList ++ FormatBool url ++
    ", title is ".toList ++ FormatBool title ++ ", user is ".toList ++ FormatBool user ++
    ", duration is ".toList ++ FormatBool duration ++ ".".toList
  | .playlistURL href => "Playlist URL found: ".toList ++ href
  | .advertisingURL href => "Advertising URL found: ".toList ++ href
  | .noMoreResults => "No more results left on page.".toList
  | .durationExcessive t y d tol =>
    "The duration difference is excessive: | ".toList ++ formatInt t ++ " - ".toList ++
    formatInt y ++ " | = ".toList ++ formatInt d ++ " (max tolerated: ".toList ++
    formatInt tol ++ ")".toList
  | .playlistOrUser => "Track is actually pointing to playlist or user.".toList
  | .seems text => text
  | .notVideo url =>
    "URL ".toList ++ url ++ " doesn't seem to be pointing to any YouTube video.".toList

/-- Outcome of one call of `Next`: a candidate with a nil error, an error, or
a run-time fault. -/
inductive Pull where
  /-- A candidate, error nil. -/
  | track (t : YouTubeTrack)
  /-- A non-nil error. -/
  | error (e : Error)
  /-- Index out of range. -/
  | fault

/-- The error of an outcome, if it is one. -/
def Pull.error? : Pull → Option Error
  | .error e => some e
  | _ => none

/-- The duration of the candidate of an outcome, if it has one. -/
def Pull.duration? : Pull → Option Int
  | .track t => some t.Duration
  | _ => none

/-- The identifier and address of the candidate of an outcome, if it has one. -/
def Pull.idURL? : Pull → Option (GoString × GoString)
  | .track t => some (t.ID, t.URL)
  | _ => none

/-- Whether the outcome is a run-time fault. -/
def Pull.isFault : Pull → Bool
  | .fault => true
  | _ => false

/-! ## The functions of the package -/

/-- Lines 157-163 of `IdFromUrl`: cut `id_part` at the first `?`, then at the
first `&list`. -/
def truncateId (id_part : GoString) : Option GoString :=
  let cut : Option GoString :=
    if Contains id_part "?".toList then (Split id_part "?".toList)[0]? else some id_part
  match cut with
  | none => none
  | some id_part =>
    if Contains id_part "&list".toList then (Split id_part "&list".toList)[0]?
    else some id_part

/-- Go `IdFromUrl` (lines 150-164); `none` when a split is indexed past its end. -/
def IdFromUrl (url : GoString) : Option GoString :=
  let id_part : Option GoString :=
    if Contains (ToLower url) "youtu.be/".toList then
      (Split url "youtu.be/".toList)[1]?
    else
      (Split url "watch?v=".toList)[1]?
  match id_part with
  | none => none
  | some id_part => truncateId id_part

/-- Go `ValidateURL` (lines 166-172); `none` is the nil error. -/
def ValidateURL (url : GoString) : Option Error :=
  if !Contains (ToLower url) "youtu.be/".toList &&
      !Contains (ToLower url) "watch?v=".toList then
    some (Error.notVideo url)
  else none

/-- The duration delta that `Match` computes and prints:
`int(math.Abs(float64(track.Duration - youtube_track.Duration)))`. -/
def durationDelta (trackDuration youtubeDuration : Int) : Int :=
  intOfFloat ((float64 (wrapInt (trackDuration - youtubeDuration))).natAbs : Int)

/-- Go `YouTubeTrack.Match` (lines 124-136); `none` is the nil error. -/
def YouTubeTrack.Match (sys : System) (youtube_track : YouTubeTrack) (track : Youtube.Track) :
    Option Error :=
  if durationDelta track.Duration youtube_track.Duration > sys.YOUTUBE_DURATION_TOLERANCE then
    some (Error.durationExcessive track.Duration youtube_track.Duration
      (durationDelta track.Duration youtube_track.Duration) sys.YOUTUBE_DURATION_TOLERANCE)
  else if Contains youtube_track.URL "&list=".toList ||
      Contains youtube_track.URL "/user/".toList then
    some Error.playlistOrUser
  else
    match track.Seems youtube_track.Title with
    | some err => some (Error.seems err)
    | none => none

/-- Go-query `Selection.Eq(index)` on the nodes of a selection: a negative
index counts from the end, and an index out of range selects nothing. -/
def SelectionEq {α : Type} (nodes : List α) (index : Int) : Option α :=
  let index := if index < 0 then index + nodes.length else index
  if index ≥ nodes.length ∨ index < 0 then none else nodes[index.toNat]?

/-- Lines 86-96 of `Next` on the trimmed duration text: the pair
`(item_length, item_length_ok)`, or `none` when `[1]` or `[:2]` is out of range. -/
def parseLength (item_length_str : GoString) : Option (Int × Bool) :=
  if Contains item_length_str ": ".toList then
    match (Split item_length_str ": ".toList)[1]? with
    | none => none
    | some item_length_str =>
      match (Split item_length_str ":".toList)[0]? with
      | none => none
      | some minutes =>
        match Atoi (utf8 minutes) with
        | none => some (0, false)
        | some item_length_m =>
          match (Split item_length_str ":".toList)[1]? with
          | none => none
          | some seconds =>
            match sliceTo (utf8 seconds) 2 with
            | none => none
            | some seconds2 =>
              match Atoi seconds2 with
              | none => some (0, false)
              | some item_length_s =>
                some (wrapInt (wrapInt (item_length_m * 60) + item_length_s), true)
  else some (0, false)

/-- Lines 76 and 82-97 of `Next`: `item_duration` is the text of the duration
entry at the cursor, `none` when the duration view is too short. -/
def itemLength (item_duration : Option GoString) : Option (Int × Bool) :=
  match item_duration with
  | none => some (0, false)
  | some text => parseLength (TrimSpace text)

/-- Lines 73-118 of `Next`, on the entries at the cursor: `item` is the link
node (`none` for an empty selection, whose attributes are all absent),
`item_desc` the `a` text of the description entry and `item_duration` the
text of the duration entry, each `none` when its view is too short. -/
def pullEntry (sys : System) (track : Track) (item : Option LinkNode)
    (item_desc item_duration : Option GoString) : Pull :=
  let item_href : GoString := ((item.bind (·.href)).getD [])
  let item_href_ok : Bool := (item.bind (·.href)).isSome
  let item_title : GoString := ((item.bind (·.title)).getD [])
  let item_title_ok : Bool := (item.bind (·.title)).isSome
  let item_user : GoString := match item_desc with
    | none => "UNKNOWN".toList
    | some d => TrimSpace d
  let item_user_ok : Bool := item_desc.isSome
  match itemLength item_duration with
  | none => Pull.fault
  | some (item_length, item_length_ok) =>
    if !(item_href_ok && item_title_ok && item_user_ok && item_length_ok) then
      Pull.error (Error.nonStandard item_href_ok item_title_ok item_user_ok item_length_ok)
    else if !Contains (ToLower item_href) "youtu.be".toList &&
        Contains (ToLower item_href) "&list=".toList then
      Pull.error (Error.playlistURL item_href)
    else if !Contains (ToLower item_href) "youtu.be".toList &&
        !Contains (ToLower item_href) "watch?v=".toList then
      Pull.error (Error.advertisingURL item_href)
    else
      match IdFromUrl (sys.YOUTUBE_VIDEO_PREFIX ++ item_href) with
      | none => Pull.fault
      | some id =>
        Pull.track
          { Track := track
            ID := id
            URL := sys.YOUTUBE_VIDEO_PREFIX ++ item_href
            Title := item_title
            User := item_user
            Duration := item_length }

/-- Go `QueryTracks` (lines 36-62): `fetch` stands for the two ways of getting
the document of a query, with the text of the error when both fail. -/
def QueryTracks (sys : System) (fetch : GoString → Except GoString Document)
    (track : Track) : Except Error YouTubeTracks :=
  let query_string :=
    sys.queryString (track.SearchPattern.map (fun c => if c = ' ' then '+' else c))
  match fetch query_string with
  | .error reason => .error (Error.cannotRetrieve query_string reason)
  | .ok doc =>
    .ok
      { Track := track
        Selection := doc.video
        SelectionDesc := doc.desc
        SelectionDuration := doc.duration
        SelectionPointer := 0 }

/-- The result set that `QueryTracks` builds from a fetched document (lines 55-61). -/
def fresh (track : Track) (doc : Document) : YouTubeTracks :=
  { Track := track
    Selection := doc.video
    SelectionDesc := doc.desc
    SelectionDuration := doc.duration
    SelectionPointer := 0 }

/-- Go `YouTubeTracks.HasNext` (lines 64-66).  The cursor is a plain integer:
at `SelectionPointer = 2 ^ 63 - 1`, which no sequence of calls reaches from a
fresh result set, the addition of Go wraps around and this one does not. -/
def YouTubeTracks.HasNext (youtube_tracks : YouTubeTracks) : Bool :=
  decide (youtube_tracks.SelectionPointer + 1 < (youtube_tracks.Selection.length : Int))

/-- The position that `Next` reads: the cursor after `SelectionPointer++`. -/
def YouTubeTracks.advance (youtube_tracks : YouTubeTracks) : YouTubeTracks :=
  { youtube_tracks with SelectionPointer := youtube_tracks.SelectionPointer + 1 }

/-- Go `YouTubeTracks.Next` (lines 68-122): the result set after the call, and
the outcome. -/
def YouTubeTracks.Next (sys : System) (youtube_tracks : YouTubeTracks) :
    YouTubeTracks × Pull :=
  if youtube_tracks.HasNext then
    let youtube_tracks := youtube_tracks.advance
    let p := youtube_tracks.SelectionPointer
    let item := SelectionEq youtube_tracks.Selection p
    let item_desc : Option GoString :=
      if p < (youtube_tracks.SelectionDesc.length : Int) then
        some ((SelectionEq youtube_tracks.SelectionDesc p).getD [])
      else none
    let item_duration : Option GoString :=
      if p < (youtube_tracks.SelectionDuration.length : Int) then
        some ((SelectionEq youtube_tracks.SelectionDuration p).getD [])
      else none
    (youtube_tracks, pullEntry sys youtube_tracks.Track item item_desc item_duration)
  else
    (youtube_tracks, Pull.error Error.noMoreResults)

/-- The result set after `n` consecutive calls of `Next`. -/
def nextN (sys : System) : Nat → YouTubeTracks → YouTubeTracks
  | 0, s => s
  | n + 1, s => ((nextN sys n s).Next sys).1

/-- The outcome of the `k`-th of consecutive calls of `Next` (`k` from 1). -/
def kthPull (sys : System) (k : Nat) (s : YouTubeTracks) : Pull :=
  ((nextN sys (k - 1) s).Next sys).2

/-- The position examined by a call of `Next`: the incremented cursor, or
`none` when the call reads no entry. -/
def YouTubeTracks.examined (youtube_tracks : YouTubeTracks) : Option Int :=
  if youtube_tracks.HasNext then some (youtube_tracks.SelectionPointer + 1) else none

/-! ## Sample data -/

/-- Constants as the application sets them. -/
def sampleSystem : System :=
  { YOUTUBE_VIDEO_PREFIX := "https://www.youtube.com".toList
    YOUTUBE_DURATION_TOLERANCE := 20
    queryString := fun q => "https://www.youtube.com/results?search_query=".toList ++ q }

/-- A track of 225 seconds whose title check accepts everything. -/
def sampleTrack : Track :=
  { SearchPattern := "Artist Song".toList
    Duration := 225
    Seems := fun _ => none }

/-- A document of three entries, the first one a playlist. -/
def sampleDoc : Document :=
  { video :=
      [ ⟨some "/watch?v=xyz&list=PL1".toList, some "A playlist".toList⟩,
        ⟨some "/watch?v=abc123".toList, some "Artist - Song".toList⟩,
        ⟨some "/watch?v=def456".toList, some "Artist - Song (live)".toList⟩ ]
    desc := ["someone".toList, " uploader ".toList, "other".toList]
    duration :=
      ["Duration: 10:00.".toList, " - Duration: 3:46.".toList, "Duration: 0:09".toList] }

/-- A document with a single, well-formed entry. -/
def oneEntryDoc : Document :=
  { video := [⟨some "/watch?v=abc123".toList, some "Artist - Song".toList⟩]
    desc := ["uploader".toList]
    duration := ["Duration: 3:45".toList] }

/-- A document whose entries at the positions 1 and 2 carry minutes beyond the
range of a Go `int`: `2 ^ 63` minutes, and `2 ^ 62` minutes. -/
def longDoc : Document :=
  { video :=
      [ ⟨some "/watch?v=xyz".toList, some "First".toList⟩,
        ⟨some "/watch?v=abc123".toList, some "Artist - Song".toList⟩,
        ⟨some "/watch?v=def456".toList, some "Artist - Song".toList⟩ ]
    desc := ["someone".toList, "uploader".toList, "other".toList]
    duration :=
      [ "Duration: 1:00".toList,
        "Duration: 9223372036854775808:00".toList,
        "Duration: 4611686018427387904:45".toList ] }

/-- A document of entries that are incomplete, odd or ill-formed in one way
each: a signed minute count (1), a playlist without title (2), no title and
no seconds (3), a capitalised watch marker (4), no seconds (5), one seconds
digit (6), a channel whose name contains `youtu.be` (7), letters for minutes
(8), a complete playlist entry (9), a complete channel entry (10), letters
for seconds (11), a playlist that mentions `YOUTU.BE` in capitals (12), a
playlist marker in capitals (13). -/
def oddDoc : Document :=
  { video :=
      [ ⟨some "/watch?v=first".toList, some "First".toList⟩,
        ⟨some "/watch?v=abc123".toList, some "Artist - Song".toList⟩,
        ⟨some "/watch?v=xyz&list=PL1".toList, none⟩,
        ⟨some "/watch?v=abc123".toList, none⟩,
        ⟨some "/WATCH?V=abc123".toList, some "Artist - Song".toList⟩,
        ⟨some "/watch?v=abc123".toList, some "Artist - Song".toList⟩,
        ⟨some "/watch?v=abc123".toList, some "Artist - Song".toList⟩,
        ⟨some "/channel/youtu.be".toList, some "Artist - Song".toList⟩,
        ⟨some "/watch?v=abc123".toList, some "Artist - Song".toList⟩,
        ⟨some "/watch?v=xyz&list=PL1".toList, some "A playlist".toList⟩,
        ⟨some "/channel/UC123".toList, some "A channel".toList⟩,
        ⟨some "/watch?v=abc123".toList, some "Artist - Song".toList⟩,
        ⟨some "/watch?v=abc&list=PL1&x=YOUTU.BE".toList, some "A playlist".toList⟩,
        ⟨some "/results?x=1&LIST=PL1".toList, some "A playlist".toList⟩ ]
    desc := List.replicate 14 "uploader".toList
    duration :=
      [ "Duration: 1:00".toList,
        "Duration: -1:30".toList,
        "Duration: 3:45".toList,
        "Duration: 345".toList,
        "Duration: 3:45".toList,
        "Duration: 345".toList,
        "Duration: 3:4".toList,
        "Duration: 3:45".toList,
        "Duration: x:45".toList,
        "Duration: 3:45".toList,
        "Duration: 3:45".toList,
        "Duration: 3:xy".toList,
        "Duration: 3:45".toList,
        "Duration: 3:45".toList ] }

/-- The result set over `doc` with the cursor at `c`, as `c` calls of `Next`
leave a fresh one. -/
def cursorAt (doc : Document) (c : Nat) : YouTubeTracks :=
  { fresh sampleTrack doc with SelectionPointer := (c : Int) }

/-- One call on a result set: `HasNext` or `Next`. -/
inductive Call where
  /-- A call of `HasNext`. -/
  | hasNext
  /-- A call of `Next`. -/
  | next
deriving DecidableEq

/-- The result set after one call: `HasNext` only reads it, `Next` may move
the cursor. -/
def step (sys : System) : Call → YouTubeTracks → YouTubeTracks
  | Call.hasNext, s => s
  | Call.next, s => (s.Next sys).1

/-- The result set after a sequence of calls, the first call first. -/
def run (sys : System) : List Call → YouTubeTracks → YouTubeTracks
  | [], s => s
  | c :: cs, s => run sys cs (step sys c s)

/-- Whether the result of `Match` is the error of line 126, the excessive
duration difference. -/
def isDurationError : Option Error → Bool
  | some (Error.durationExcessive _ _ _ _) => true
  | _ => false

/-- A candidate, as `Next` builds it, with the given address and duration. -/
def sampleCandidate (url : GoString) (duration : Int) : YouTubeTrack :=
  { Track := sampleTrack
    ID := "abc123".toList
    URL := url
    Title := "Artist - Song".toList
    User := "uploader".toList
    Duration := duration }

/-! ## Strings: searching and splitting -/

theorem HasPrefix_iff (s p : GoString) : HasPrefix s p = true ↔ p <+: s := by
  unfold HasPrefix
  exact List.isPrefixOf_iff_prefix

theorem HasPrefix_nil (s : GoString) : HasPrefix s [] = true := by
  rw [HasPrefix_iff]; exact List.nil_prefix

theorem Index_cons (c : Char) (cs p : GoString) :
    Index (c :: cs) p =
      if HasPrefix (c :: cs) p then some 0 else (Index cs p).map (· + 1) := by
  simp [Index]

theorem Index_nil_of_ne_nil (p : GoString) (hp : p ≠ []) : Index [] p = none := by
  cases p with
  | nil => exact absurd rfl hp
  | cons c t => simp [Index, HasPrefix, List.isPrefixOf]

theorem Index_of_HasPrefix (s p : GoString) (h : HasPrefix s p = true) :
    Index s p = some 0 := by
  cases s with
  | nil => simp [Index, h]
  | cons c cs => simp [Index, h]

theorem Contains_iff (s p : GoString) : Contains s p = true ↔ p <:+: s := by
  unfold Contains
  induction s with
  | nil =>
    by_cases h : HasPrefix [] p = true
    · have h2 := (HasPrefix_iff [] p).1 h
      simp [Index, h, h2.isInfix]
    · have h3 : ¬ p <:+: [] := fun hi => h ((HasPrefix_iff [] p).2 (by
        have := List.infix_nil.1 hi
        subst this; exact List.nil_prefix))
      simp [Index, h, h3]
  | cons c cs ih =>
    rw [Index_cons, List.infix_cons_iff]
    by_cases h : HasPrefix (c :: cs) p = true
    · simp [h, (HasPrefix_iff _ _).1 h]
    · have h2 : ¬ p <+: c :: cs := fun hp => h ((HasPrefix_iff _ _).2 hp)
      simp only [h, h2, false_or, Bool.false_eq_true, if_false]
      rw [← ih]
      cases Index cs p <;> simp

theorem Contains_false_iff (s p : GoString) : Contains s p = false ↔ ¬ p <:+: s := by
  rw [← Contains_iff]; simp

theorem Index_none_iff (s p : GoString) : Index s p = none ↔ Contains s p = false := by
  unfold Contains
  cases Index s p <;> simp

/-- No occurrence of `p` in `a ++ b` starts inside `a`. -/
theorem Index_append_right (a b p : GoString)
    (h : ∀ j, j < a.length → HasPrefix ((a ++ b).drop j) p = false) :
    Index (a ++ b) p = (Index b p).map (· + a.length) := by
  induction a with
  | nil => cases hi : Index b p <;> simp [hi]
  | cons c a ih =>
    have h0 : HasPrefix (c :: (a ++ b)) p = false := by
      have := h 0 (by simp)
      simpa using this
    have hrest : ∀ j, j < a.length → HasPrefix ((a ++ b).drop j) p = false := by
      intro j hj
      have := h (j + 1) (by simpa using hj)
      simpa using this
    rw [List.cons_append, Index_cons, h0, ih hrest]
    cases Index b p <;> simp [Nat.add_assoc]

/-- An occurrence cannot start inside `a` when the first character of `p`
does not occur in `a`. -/
theorem noEarly_of_head (a b p : GoString) (c : Char) (t : GoString) (hp : p = c :: t)
    (hc : c ∉ a) :
    ∀ j, j < a.length → HasPrefix ((a ++ b).drop j) p = false := by
  subst hp
  intro j hj
  rw [Bool.eq_false_iff]
  intro hp
  rw [HasPrefix_iff] at hp
  have hd : (a ++ b).drop j = a.get ⟨j, hj⟩ :: (a.drop (j + 1) ++ b) := by
    rw [List.drop_append_of_le_length (Nat.le_of_lt hj)]
    rw [List.drop_eq_getElem_cons hj]
    rfl
  rw [hd] at hp
  obtain ⟨r, hr⟩ := hp
  have hh : c = a.get ⟨j, hj⟩ := by
    have := congrArg List.head? hr
    simpa using this
  exact hc (hh ▸ List.get_mem a j hj)

/-- An occurrence cannot start inside `a` when `a` has no occurrence and the
character that follows `a` is not one of the later characters of `p`. -/
theorem noEarly_of_boundary (a b p : GoString) (c : Char) (t : GoString) (hp : p = c :: t)
    (ha : Contains a p = false)
    (hb : b = [] ∨ ∃ x b1, b = x :: b1 ∧ x ∉ t) :
    ∀ j, j < a.length → HasPrefix ((a ++ b).drop j) p = false := by
  subst hp
  intro j hj
  rw [Bool.eq_false_iff]
  intro hp
  rw [HasPrefix_iff] at hp
  rw [Contains_false_iff] at ha
  rw [List.drop_append_of_le_length (Nat.le_of_lt hj)] at hp
  have key : c :: t <+: a.drop j := by
    rcases hb with hb | ⟨x, b1, hb, hx⟩
    · subst hb; simpa using hp
    · rcases List.prefix_or_prefix_of_prefix hp (List.prefix_append (a.drop j) b) with h1 | h1
      · exact h1
      · obtain ⟨r, hr⟩ := h1
        cases r with
        | nil => rw [List.append_nil] at hr; rw [hr]
        | cons y r =>
          exfalso
          rw [← hr] at hp
          have h2 := (List.prefix_append_right_inj (a.drop j)).1 hp
          subst hb
          have hxy : y = x := by
            obtain ⟨w, hw⟩ := h2
            have := congrArg List.head? hw
            simpa using this
          subst hxy
          have hne : a.drop j ≠ [] := by
            intro he
            have := congrArg List.length he
            simp at this
            omega
          cases hda : a.drop j with
          | nil => exact hne hda
          | cons z zs =>
            rw [hda] at hr
            have ht : t = zs ++ y :: r := by
              have := congrArg List.tail hr
              simpa using this.symm
            exact hx (ht ▸ by simp)
  exact ha (List.IsInfix.trans key.isInfix (List.drop_suffix j a).isInfix)

theorem firstPiece_append (a b p : GoString)
    (h : ∀ j, j < a.length → HasPrefix ((a ++ b).drop j) p = false) :
    firstPiece (a ++ b) p = a ++ firstPiece b p := by
  unfold firstPiece
  rw [Index_append_right a b p h]
  cases Index b p with
  | none => simp
  | some m =>
    simp only [Option.map_some']
    rw [Nat.add_comm, List.take_append]

theorem firstPiece_of_not_Contains (s p : GoString) (h : Contains s p = false) :
    firstPiece s p = s := by
  unfold firstPiece
  rw [(Index_none_iff s p).2 h]

theorem firstPiece_of_HasPrefix (s p : GoString) (h : HasPrefix s p = true) :
    firstPiece s p = [] := by
  unfold firstPiece
  rw [Index_of_HasPrefix s p h]
  simp

theorem genSplit_head (n : Nat) (r sep : GoString) (hsep : sep ≠ [])
    (hn : r.length ≤ n) : (genSplit n r sep)[0]? = some (firstPiece r sep) := by
  cases n with
  | zero =>
    have hr : r = [] := List.length_eq_zero.1 (Nat.le_zero.1 hn)
    subst hr
    simp [genSplit, firstPiece, Index_nil_of_ne_nil sep hsep]
  | succ n =>
    unfold firstPiece
    cases hi : Index r sep <;> simp [genSplit, hi]

theorem Split_zero (s sep : GoString) (hsep : sep ≠ []) :
    (Split s sep)[0]? = some (firstPiece s sep) := by
  unfold Split
  have : sep.isEmpty = false := by cases sep <;> simp_all
  rw [this]
  exact genSplit_head s.length s sep hsep (Nat.le_refl _)

theorem Split_one (s sep : GoString) (hsep : sep ≠ []) :
    (Split s sep)[1]? =
      (Index s sep).map (fun m => firstPiece (s.drop (m + sep.length)) sep) := by
  unfold Split
  have hE : sep.isEmpty = false := by cases sep <;> simp_all
  have hlen : 0 < sep.length := List.length_pos.2 hsep
  rw [hE]
  cases hs : s.length with
  | zero =>
    have : s = [] := List.length_eq_zero.1 hs
    subst this
    simp [genSplit, Index_nil_of_ne_nil sep hsep]
  | succ n =>
    cases hi : Index s sep with
    | none => simp [genSplit, hi]
    | some m =>
      simp only [genSplit, hi, Bool.false_eq_true, if_false, Option.map_some']
      rw [List.getElem?_cons_succ]
      apply genSplit_head _ _ _ hsep
      rw [List.length_drop]
      omega

theorem ToLower_append (a b : GoString) : ToLower (a ++ b) = ToLower a ++ ToLower b := by
  simp [ToLower]

/-- Lowering both the text and the needle keeps an occurrence. -/
theorem Contains_ToLower (s p : GoString) (h : Contains s p = true) :
    Contains (ToLower s) (ToLower p) = true := by
  rw [Contains_iff] at h ⊢
  obtain ⟨u, v, huv⟩ := h
  exact ⟨ToLower u, ToLower v, by rw [← huv]; simp [ToLower]⟩

theorem not_Contains_of_ToLower (s p : GoString) (hp : ToLower p = p)
    (h : Contains (ToLower s) p = false) : Contains s p = false := by
  rw [Bool.eq_false_iff] at h ⊢
  intro hc
  exact h (hp ▸ Contains_ToLower s p hc)

theorem Contains_append_left_false (a b p : GoString) (h : Contains (a ++ b) p = false) :
    Contains a p = false := by
  rw [Contains_false_iff] at h ⊢
  exact fun hi => h (List.IsInfix.trans hi (List.prefix_append a b).isInfix)

theorem Contains_append_right_false (a b p : GoString) (h : Contains (a ++ b) p = false) :
    Contains b p = false := by
  rw [Contains_false_iff] at h ⊢
  exact fun hi => h (List.IsInfix.trans hi (List.suffix_append a b).isInfix)

/-- A character that is not in the text is not found in it. -/
theorem not_mem_of_Contains_single (s : GoString) (c : Char)
    (h : Contains s [c] = false) : c ∉ s := by
  rw [Contains_false_iff] at h
  intro hm
  obtain ⟨u, v, huv⟩ := List.append_of_mem hm
  exact h ⟨u, v, by rw [huv]; simp⟩

/-- A text lacking one character of the needle has no occurrence of it. -/
theorem Contains_false_of_not_mem (s p : GoString) (c : Char) (hc : c ∈ p) (hs : c ∉ s) :
    Contains s p = false := by
  rw [Contains_false_iff]
  intro hi
  exact hs (hi.subset hc)

/-- The first occurrence of a needle whose first character does not repeat,
in a text that has none before it. -/
theorem cut_at_marker (a b p : GoString) (c : Char) (t : GoString) (hp : p = c :: t)
    (ha : Contains a p = false) (hc : c ∉ t)
    (hb : HasPrefix b p = true) :
    Index (a ++ b) p = some a.length ∧ Contains (a ++ b) p = true ∧
      firstPiece (a ++ b) p = a := by
  obtain ⟨r, hr⟩ := (HasPrefix_iff _ _).1 hb
  have hne := noEarly_of_boundary a b p c t hp ha
    (Or.inr ⟨c, t ++ r, by rw [← hr, hp]; rfl, hc⟩)
  have hi : Index (a ++ b) p = some a.length := by
    rw [Index_append_right a b _ hne, Index_of_HasPrefix b _ hb]
    simp
  refine ⟨hi, ?_, ?_⟩
  · unfold Contains; rw [hi]; rfl
  · rw [firstPiece_append a b _ hne, firstPiece_of_HasPrefix b _ hb, List.append_nil]

/-- Lines 157-163 on an identifier followed by a query or playlist part. -/
theorem truncateId_append (ID suf : GoString)
    (h1 : Contains ID "?".toList = false) (h2 : Contains ID "&list".toList = false)
    (hs : suf = [] ∨ HasPrefix suf "?".toList = true ∨ HasPrefix suf "&list".toList = true) :
    truncateId (ID ++ suf) = some ID := by
  rcases hs with hs | hs | hs
  · subst hs
    rw [List.append_nil]
    unfold truncateId
    rw [h1]
    simp only [Bool.false_eq_true, if_false]
    rw [h2]
    simp
  · obtain ⟨_, hc, hf⟩ := cut_at_marker ID suf "?".toList '?' [] rfl h1 (by simp) hs
    unfold truncateId
    rw [hc, Split_zero _ _ (by decide), hf]
    simp only [if_true]
    rw [h2]
    simp
  · -- the part kept after cutting at `?` still starts with `&list`
    have key : ∀ s2, HasPrefix s2 "&list".toList = true →
        (if Contains (ID ++ s2) "&list".toList = true then
          (Split (ID ++ s2) "&list".toList)[0]? else some (ID ++ s2)) = some ID := by
      intro s2 hs2
      obtain ⟨_, hc, hf⟩ := cut_at_marker ID s2 "&list".toList '&' "list".toList rfl h2
        (by decide) hs2
      rw [hc, Split_zero _ _ (by decide), hf]
      simp
    have hnoq : '?' ∉ ID := not_mem_of_Contains_single ID '?' h1
    unfold truncateId
    by_cases hc : Contains (ID ++ suf) "?".toList = true
    · rw [if_pos hc, Split_zero _ _ (by decide)]
      simp only []
      rw [firstPiece_append ID suf _ (noEarly_of_head ID suf "?".toList '?' [] rfl hnoq)]
      apply key
      obtain ⟨r, hr⟩ := (HasPrefix_iff _ _).1 hs
      rw [← hr, firstPiece_append "&list".toList r _
        (noEarly_of_head "&list".toList r "?".toList '?' [] rfl (by decide))]
      rw [HasPrefix_iff]
      exact List.prefix_append _ _
    · rw [if_neg hc]
      simp only []
      exact key suf hs

/-- What follows an identifier starts with `?` or `&`, in either letter case. -/
theorem suffix_boundary (suf t : GoString) (hq : '?' ∉ t) (ha : '&' ∉ t)
    (hs : suf = [] ∨ HasPrefix suf "?".toList = true ∨ HasPrefix suf "&list".toList = true) :
    ToLower suf = [] ∨ ∃ x b1, ToLower suf = x :: b1 ∧ x ∉ t := by
  rcases hs with hs | hs | hs
  · left; subst hs; rfl
  · right
    obtain ⟨r, hr⟩ := (HasPrefix_iff _ _).1 hs
    exact ⟨'?', ToLower r, by rw [← hr]; rfl, hq⟩
  · right
    obtain ⟨r, hr⟩ := (HasPrefix_iff _ _).1 hs
    exact ⟨'&', ToLower ("list".toList ++ r), by rw [← hr]; rfl, ha⟩

/-- No short-link marker, in any letter case, in an identifier followed by its
query or playlist part. -/
theorem no_short_marker_append (ID suf : GoString)
    (hID : Contains (ToLower ID) "youtu.be/".toList = false)
    (hs : suf = [] ∨ HasPrefix suf "?".toList = true ∨ HasPrefix suf "&list".toList = true)
    (hsuf : Contains (ToLower suf) "youtu.be/".toList = false) :
    Contains (ToLower (ID ++ suf)) "youtu.be/".toList = false := by
  rw [ToLower_append, ← Index_none_iff]
  rw [Index_append_right _ _ _ (noEarly_of_boundary (ToLower ID) (ToLower suf)
    "youtu.be/".toList 'y' "outu.be/".toList rfl hID
    (suffix_boundary suf "outu.be/".toList (by decide) (by decide) hs))]
  rw [(Index_none_iff _ _).2 hsuf]
  rfl

/-- What follows an identifier starts with `?` or `&`. -/
theorem suffix_boundary_plain (suf t : GoString) (hq : '?' ∉ t) (ha : '&' ∉ t)
    (hs : suf = [] ∨ HasPrefix suf "?".toList = true ∨ HasPrefix suf "&list".toList = true) :
    suf = [] ∨ ∃ x b1, suf = x :: b1 ∧ x ∉ t := by
  rcases hs with hs | hs | hs
  · left; exact hs
  · right
    obtain ⟨r, hr⟩ := (HasPrefix_iff _ _).1 hs
    exact ⟨'?', r, by rw [← hr]; rfl, hq⟩
  · right
    obtain ⟨r, hr⟩ := (HasPrefix_iff _ _).1 hs
    exact ⟨'&', "list".toList ++ r, by rw [← hr]; rfl, ha⟩

/-- No short-link marker, as written, in an identifier followed by its query
or playlist part. -/
theorem no_short_marker_append_plain (ID suf : GoString)
    (hID : Contains ID "youtu.be/".toList = false)
    (hs : suf = [] ∨ HasPrefix suf "?".toList = true ∨ HasPrefix suf "&list".toList = true)
    (hsuf : Contains suf "youtu.be/".toList = false) :
    Contains (ID ++ suf) "youtu.be/".toList = false := by
  rw [← Index_none_iff]
  rw [Index_append_right _ _ _ (noEarly_of_boundary ID suf
    "youtu.be/".toList 'y' "outu.be/".toList rfl hID
    (suffix_boundary_plain suf "outu.be/".toList (by decide) (by decide) hs))]
  rw [(Index_none_iff _ _).2 hsuf]
  rfl

/-- C1 (amended): for every identifier `ID` that contains no `?`, no `&list`
and no marker (`youtu.be/` or `watch?v=`, as written), every text `pre` in
front that contains neither `youtu.be/` (in any letter case) nor `watch?v=`,
and every `suf` behind that is empty or starts with `?` or `&list` and
contains no marker: `IdFromUrl` returns exactly `ID` on
`pre ++ "youtu.be/" ++ ID ++ suf`; and it returns exactly `ID` on
`pre ++ "watch?v=" ++ ID ++ suf` provided in addition that `watch?v=` does not
occur across the border of `ID` and `suf` (it occurs nowhere in `ID ++ suf`)
and that neither `ID` nor `suf` contains `youtu.be/` in any letter case. -/
theorem IdFromUrl_wellformed (ID pre suf : GoString)
    (hID1 : Contains ID "?".toList = false)
    (hID2 : Contains ID "&list".toList = false)
    (hIDy : Contains ID "youtu.be/".toList = false)
    (hIDw : Contains ID "watch?v=".toList = false)
    (hpre1 : Contains (ToLower pre) "youtu.be/".toList = false)
    (hpre2 : Contains pre "watch?v=".toList = false)
    (hsuf1 : suf = [] ∨ HasPrefix suf "?".toList = true ∨
      HasPrefix suf "&list".toList = true)
    (hsufy : Contains suf "youtu.be/".toList = false)
    (hsufw : Contains suf "watch?v=".toList = false) :
    IdFromUrl (pre ++ "youtu.be/".toList ++ ID ++ suf) = some ID ∧
      (Contains (ID ++ suf) "watch?v=".toList = false →
        Contains (ToLower ID) "youtu.be/".toList = false →
        Contains (ToLower suf) "youtu.be/".toList = false →
        IdFromUrl (pre ++ "watch?v=".toList ++ ID ++ suf) = some ID) := by
  have _hIDw := hIDw
  have _hsufw := hsufw
  constructor
  · -- the short-link form
    have e1 : pre ++ "youtu.be/".toList ++ ID ++ suf =
        pre ++ ("youtu.be/".toList ++ (ID ++ suf)) := by simp
    have hyes : Contains (ToLower (pre ++ ("youtu.be/".toList ++ (ID ++ suf))))
        "youtu.be/".toList = true := by
      rw [ToLower_append, ToLower_append]
      exact (cut_at_marker (ToLower pre)
        (ToLower "youtu.be/".toList ++ ToLower (ID ++ suf)) "youtu.be/".toList 'y'
        "outu.be/".toList rfl
        hpre1 (by decide)
        (by rw [HasPrefix_iff]; exact List.prefix_append _ _)).2.1
    have hpre3 : Contains pre "youtu.be/".toList = false :=
      not_Contains_of_ToLower pre _ rfl hpre1
    have hrest : Contains (ID ++ suf) "youtu.be/".toList = false :=
      no_short_marker_append_plain ID suf hIDy hsuf1 hsufy
    obtain ⟨hi, _, _⟩ := cut_at_marker pre ("youtu.be/".toList ++ (ID ++ suf))
      "youtu.be/".toList 'y' "outu.be/".toList rfl hpre3 (by decide)
      (by rw [HasPrefix_iff]; exact List.prefix_append _ _)
    rw [e1]
    unfold IdFromUrl
    rw [hyes]
    simp only [if_true]
    rw [Split_one _ _ (by decide), hi]
    simp only [Option.map_some']
    have hd : (pre ++ ("youtu.be/".toList ++ (ID ++ suf))).drop
        (pre.length + "youtu.be/".toList.length) = ID ++ suf := by
      rw [← List.append_assoc, List.drop_left']
      simp
    rw [hd, firstPiece_of_not_Contains _ _ hrest]
    exact truncateId_append ID suf hID1 hID2 hsuf1
  · -- the canonical form
    intro hW hID3 hsuf2
    have hlow := no_short_marker_append ID suf hID3 hsuf1 hsuf2
    have e1 : pre ++ "watch?v=".toList ++ ID ++ suf =
        pre ++ ("watch?v=".toList ++ (ID ++ suf)) := by simp
    have hno : Contains (ToLower (pre ++ ("watch?v=".toList ++ (ID ++ suf))))
        "youtu.be/".toList = false := by
      rw [ToLower_append, ToLower_append, ← Index_none_iff]
      rw [Index_append_right _ _ _ (noEarly_of_boundary (ToLower pre)
        (ToLower "watch?v=".toList ++ ToLower (ID ++ suf)) "youtu.be/".toList 'y'
        "outu.be/".toList rfl hpre1
        (Or.inr ⟨'w', "atch?v=".toList ++ ToLower (ID ++ suf), rfl, by decide⟩))]
      rw [Index_append_right _ _ _ (noEarly_of_head (ToLower "watch?v=".toList)
        (ToLower (ID ++ suf)) "youtu.be/".toList 'y' "outu.be/".toList rfl (by decide))]
      rw [(Index_none_iff _ _).2 hlow]
      rfl
    obtain ⟨hi, _, _⟩ := cut_at_marker pre ("watch?v=".toList ++ (ID ++ suf))
      "watch?v=".toList 'w' "atch?v=".toList rfl hpre2 (by decide)
      (by rw [HasPrefix_iff]; exact List.prefix_append _ _)
    rw [e1]
    unfold IdFromUrl
    rw [hno]
    simp only [Bool.false_eq_true, if_false]
    rw [Split_one _ _ (by decide), hi]
    simp only [Option.map_some']
    have hd : (pre ++ ("watch?v=".toList ++ (ID ++ suf))).drop
        (pre.length + "watch?v=".toList.length) = ID ++ suf := by
      rw [← List.append_assoc, List.drop_left']
      simp
    rw [hd, firstPiece_of_not_Contains _ _ hW]
    exact truncateId_append ID suf hID1 hID2 hsuf1

/-- C1 (witness): the amended statement at `https://www.youtube.com/`, identifier
`abc123` and the playlist part `&list=PL1?t=3`, for both forms. -/
theorem IdFromUrl_wellformed_witness :
    IdFromUrl ("https://www.youtube.com/".toList ++ "youtu.be/".toList ++ "abc123".toList ++
        "&list=PL1?t=3".toList) = some "abc123".toList ∧
      IdFromUrl ("https://www.youtube.com/".toList ++ "watch?v=".toList ++ "abc123".toList ++
        "&list=PL1?t=3".toList) = some "abc123".toList :=
  ⟨(IdFromUrl_wellformed "abc123".toList "https://www.youtube.com/".toList
      "&list=PL1?t=3".toList (by decide) (by decide) (by decide) (by decide) (by decide)
      (by decide) (Or.inr (Or.inr (by decide))) (by decide) (by decide)).1,
    (IdFromUrl_wellformed "abc123".toList "https://www.youtube.com/".toList
      "&list=PL1?t=3".toList (by decide) (by decide) (by decide) (by decide) (by decide)
      (by decide) (Or.inr (Or.inr (by decide))) (by decide) (by decide)).2
      (by decide) (by decide) (by decide)⟩

/-- The short-link form is not affected by `watch?v=` across the border, and
a capitalised short-link marker behind a watch marker makes `IdFromUrl` fault:
on `https://youtu.be/abwatch?v=x` the result is `abwatch`; on
`https://www.youtube.com/watch?v=abc123?x=YOUTU.BE/`, whose part `?x=YOUTU.BE/`
contains neither marker as written, a split is indexed past its end. -/
theorem IdFromUrl_short_form_and_capital_marker :
    IdFromUrl "https://youtu.be/abwatch?v=x".toList = some "abwatch".toList ∧
    Contains "?x=YOUTU.BE/".toList "youtu.be/".toList = false ∧
    Contains "?x=YOUTU.BE/".toList "watch?v=".toList = false ∧
    Contains ("abc123".toList ++ "?x=YOUTU.BE/".toList) "watch?v=".toList = false ∧
    IdFromUrl ("https://www.youtube.com/".toList ++ "watch?v=".toList ++ "abc123".toList ++
      "?x=YOUTU.BE/".toList) = none := by
  decide

/-- C1 (counterexample): the identifier `abwatch` has no `?`, no `&list` and no
marker in any letter case; the part `?v=x` behind it starts with `?` and
contains no marker; the text in front contains no marker.  Yet on
`https://www.youtube.com/watch?v=abwatch?v=x` the function `IdFromUrl` returns
`ab`, not `abwatch`: `watch?v=` occurs a second time, across the border of the
identifier and the part behind it, and `Split(...)[1]` ends there. -/
theorem IdFromUrl_marker_across_border :
    Contains "abwatch".toList "?".toList = false ∧
    Contains "abwatch".toList "&list".toList = false ∧
    Contains (ToLower "abwatch".toList) "youtu.be/".toList = false ∧
    Contains (ToLower "abwatch".toList) "watch?v=".toList = false ∧
    Contains (ToLower "https://www.youtube.com/".toList) "youtu.be/".toList = false ∧
    Contains (ToLower "https://www.youtube.com/".toList) "watch?v=".toList = false ∧
    HasPrefix "?v=x".toList "?".toList = true ∧
    Contains (ToLower "?v=x".toList) "youtu.be/".toList = false ∧
    Contains (ToLower "?v=x".toList) "watch?v=".toList = false ∧
    IdFromUrl ("https://www.youtube.com/".toList ++ "watch?v=".toList ++ "abwatch".toList ++
      "?v=x".toList) = some "ab".toList ∧
    IdFromUrl ("https://www.youtube.com/".toList ++ "watch?v=".toList ++ "abwatch".toList ++
      "?v=x".toList) ≠ some "abwatch".toList := by
  decide

/-- C2 (the code at the failing input): `ValidateURL` accepts a link whose
marker is written in capitals, and `IdFromUrl` faults on it, because it looks
for the marker in the lowered address and splits the address as written. -/
theorem ValidateURL_accepts_IdFromUrl_faults :
    ValidateURL "https://YOUTU.BE/abc123".toList = none ∧
    IdFromUrl "https://YOUTU.BE/abc123".toList = none ∧
    (Split "https://YOUTU.BE/abc123".toList "youtu.be/".toList).length = 1 ∧
    ValidateURL "https://www.youtube.com/WATCH?V=abc123".toList = none ∧
    IdFromUrl "https://www.youtube.com/WATCH?V=abc123".toList = none := by
  decide

/-! ## `Match` -/

theorem wrapInt_of_range (x : Int) (h1 : -(2 ^ 63) ≤ x) (h2 : x < 2 ^ 63) : wrapInt x = x := by
  unfold wrapInt
  rw [Int.emod_eq_of_lt (by omega) (by omega)]
  omega

/-- The delta computed by `Match` is the true distance of the two durations
as long as that distance is at most `2 ^ 53`. -/
theorem durationDelta_exact (t y : Int) (h : (t - y).natAbs ≤ 2 ^ 53) :
    durationDelta t y = ((t - y).natAbs : Int) := by
  unfold durationDelta
  have hw : wrapInt (t - y) = t - y := wrapInt_of_range _ (by omega) (by omega)
  rw [hw]
  have hf : float64 (t - y) = t - y := by
    unfold float64
    simp only []
    rw [if_pos h]
  rw [hf]
  unfold intOfFloat minInt maxInt
  rw [if_pos (by omega)]

/-- The three checks of `Match`, in the order of the source. -/
theorem Match_eq (sys : System) (c : YouTubeTrack) (track : Track) :
    c.Match sys track =
      if sys.YOUTUBE_DURATION_TOLERANCE < durationDelta track.Duration c.Duration then
        some (Error.durationExcessive track.Duration c.Duration
          (durationDelta track.Duration c.Duration) sys.YOUTUBE_DURATION_TOLERANCE)
      else if Contains c.URL "&list=".toList = true ∨ Contains c.URL "/user/".toList = true then
        some Error.playlistOrUser
      else (track.Seems c.Title).map Error.seems := by
  unfold YouTubeTrack.Match
  by_cases hgt : sys.YOUTUBE_DURATION_TOLERANCE < durationDelta track.Duration c.Duration
  · rw [if_pos hgt, if_pos hgt]
  · rw [if_neg hgt, if_neg hgt]
    by_cases hu : Contains c.URL "&list=".toList = true ∨ Contains c.URL "/user/".toList = true
    · rw [if_pos hu, if_pos (by simpa using hu)]
    · rw [if_neg hu, if_neg (by simpa using hu)]
      cases track.Seems c.Title <;> rfl

theorem isDurationError_Match (sys : System) (c : YouTubeTrack) (track : Track) :
    isDurationError (c.Match sys track) =
      decide (sys.YOUTUBE_DURATION_TOLERANCE < durationDelta track.Duration c.Duration) := by
  rw [Match_eq]
  by_cases hgt : sys.YOUTUBE_DURATION_TOLERANCE < durationDelta track.Duration c.Duration
  · rw [if_pos hgt, decide_eq_true hgt]; rfl
  · rw [if_neg hgt, decide_eq_false hgt]
    by_cases hu : Contains c.URL "&list=".toList = true ∨ Contains c.URL "/user/".toList = true
    · rw [if_pos hu]; rfl
    · rw [if_neg hu]
      cases track.Seems c.Title <;> rfl

/-- C3 (amended): for every candidate and track whose durations differ by at
most `2 ^ 53` seconds (so that the subtraction does not wrap around and the
conversion to `float64` is exact), whatever the URL and the title are,
`Match` returns the duration error of line 126 if and only if
`|track.Duration - candidate.Duration| > YOUTUBE_DURATION_TOLERANCE`; that
error carries both durations, the delta and the tolerance; a delta equal to
the tolerance is not rejected for duration and a delta of tolerance + 1 is. -/
theorem Match_duration_iff (sys : System) (c : YouTubeTrack) (track : Track)
    (h : (track.Duration - c.Duration).natAbs ≤ 2 ^ 53) :
    (isDurationError (c.Match sys track) = true ↔
      sys.YOUTUBE_DURATION_TOLERANCE < ((track.Duration - c.Duration).natAbs : Int)) ∧
    (c.Match sys track = some (Error.durationExcessive track.Duration c.Duration
        ((track.Duration - c.Duration).natAbs : Int) sys.YOUTUBE_DURATION_TOLERANCE) ↔
      sys.YOUTUBE_DURATION_TOLERANCE < ((track.Duration - c.Duration).natAbs : Int)) ∧
    (((track.Duration - c.Duration).natAbs : Int) = sys.YOUTUBE_DURATION_TOLERANCE →
      isDurationError (c.Match sys track) = false) ∧
    (((track.Duration - c.Duration).natAbs : Int) = sys.YOUTUBE_DURATION_TOLERANCE + 1 →
      isDurationError (c.Match sys track) = true) := by
  have hd := durationDelta_exact track.Duration c.Duration h
  have hE := isDurationError_Match sys c track
  have hM := Match_eq sys c track
  rw [hd] at hE hM
  revert hE hM
  generalize ((track.Duration - c.Duration).natAbs : Int) = d
  generalize c.Match sys track = m
  intro hE hM
  refine ⟨?_, ?_, ?_, ?_⟩
  · rw [hE, decide_eq_true_iff]
  · constructor
    · intro hm
      have h1 : isDurationError m = true := by rw [hm]; rfl
      rw [hE, decide_eq_true_iff] at h1
      exact h1
    · intro hgt
      rw [hM, if_pos hgt]
  · intro he
    rw [hE, decide_eq_false_iff_not]
    omega
  · intro he
    rw [hE, decide_eq_true_iff]
    omega

/-- C3 (witness): a track of 225 seconds and a candidate of 246 seconds, with
tolerance 20. -/
theorem Match_duration_iff_witness :
    isDurationError ((sampleCandidate "https://www.youtube.com/watch?v=abc123".toList 246).Match
      sampleSystem sampleTrack) = true :=
  (Match_duration_iff sampleSystem
    (sampleCandidate "https://www.youtube.com/watch?v=abc123".toList 246) sampleTrack
    (by decide)).2.2.2 (by decide)

/-- C3 (counterexample): the track lasts `2 ^ 63 - 1` seconds and the candidate
`-2 ^ 63`, both values of a Go `int`; their distance `2 ^ 64 - 1` exceeds the
tolerance 20, but the subtraction wraps around to -1 and `Match` returns no
duration error (it returns nil). -/
theorem Match_duration_wraps :
    sampleSystem.YOUTUBE_DURATION_TOLERANCE <
      (((9223372036854775807 : Int) - (-9223372036854775808)).natAbs : Int) ∧
    minInt ≤ (-9223372036854775808 : Int) ∧ (9223372036854775807 : Int) ≤ maxInt ∧
    durationDelta 9223372036854775807 (-9223372036854775808) = 1 ∧
    isDurationError
      ((sampleCandidate "https://www.youtube.com/watch?v=abc123".toList
          (-9223372036854775808)).Match sampleSystem
        { sampleTrack with Duration := 9223372036854775807 }) = false ∧
    (sampleCandidate "https://www.youtube.com/watch?v=abc123".toList
          (-9223372036854775808)).Match sampleSystem
        { sampleTrack with Duration := 9223372036854775807 } = none := by
  decide

/-- C4: for every candidate whose URL contains `&list=` or `/user/`, and for
every track (any durations, any outcome of the title check), `Match` returns
an error, namely the duration error or the playlist-or-user error; the
candidate is never accepted. -/
theorem Match_rejects_playlist_or_user (sys : System) (c : YouTubeTrack) (track : Track)
    (h : Contains c.URL "&list=".toList = true ∨ Contains c.URL "/user/".toList = true) :
    c.Match sys track ≠ none ∧
    (c.Match sys track = some (Error.durationExcessive track.Duration c.Duration
        (durationDelta track.Duration c.Duration) sys.YOUTUBE_DURATION_TOLERANCE) ∨
      c.Match sys track = some Error.playlistOrUser) := by
  rw [Match_eq]
  by_cases hgt : sys.YOUTUBE_DURATION_TOLERANCE < durationDelta track.Duration c.Duration
  · rw [if_pos hgt]
    exact ⟨by simp, Or.inl rfl⟩
  · rw [if_neg hgt, if_pos h]
    exact ⟨by simp, Or.inr rfl⟩

/-- C4 (witness): a candidate of the right duration and an accepted title whose
URL is a playlist. -/
theorem Match_rejects_playlist_or_user_witness :
    (sampleCandidate "https://www.youtube.com/watch?v=abc123&list=PL1".toList 225).Match
      sampleSystem sampleTrack ≠ none :=
  (Match_rejects_playlist_or_user sampleSystem
    (sampleCandidate "https://www.youtube.com/watch?v=abc123&list=PL1".toList 225) sampleTrack
    (Or.inl (by decide))).1

/-- The gate of `Match` in terms of the delta that the code computes
(`durationDelta`), for all durations. -/
theorem Match_none_iff_computed (sys : System) (c : YouTubeTrack) (track : Track) :
    (c.Match sys track = none ↔
      (durationDelta track.Duration c.Duration ≤ sys.YOUTUBE_DURATION_TOLERANCE ∧
        Contains c.URL "&list=".toList = false ∧ Contains c.URL "/user/".toList = false ∧
        track.Seems c.Title = none)) ∧
    (durationDelta track.Duration c.Duration ≤ sys.YOUTUBE_DURATION_TOLERANCE →
      Contains c.URL "&list=".toList = false → Contains c.URL "/user/".toList = false →
      c.Match sys track = (track.Seems c.Title).map Error.seems) ∧
    ((track.Duration - c.Duration).natAbs ≤ 2 ^ 53 →
      (c.Match sys track = none ↔
        (((track.Duration - c.Duration).natAbs : Int) ≤ sys.YOUTUBE_DURATION_TOLERANCE ∧
          Contains c.URL "&list=".toList = false ∧ Contains c.URL "/user/".toList = false ∧
          track.Seems c.Title = none))) := by
  have main : c.Match sys track = none ↔
      (durationDelta track.Duration c.Duration ≤ sys.YOUTUBE_DURATION_TOLERANCE ∧
        Contains c.URL "&list=".toList = false ∧ Contains c.URL "/user/".toList = false ∧
        track.Seems c.Title = none) := by
    rw [Match_eq]
    by_cases hgt : sys.YOUTUBE_DURATION_TOLERANCE < durationDelta track.Duration c.Duration
    · rw [if_pos hgt]
      constructor
      · intro hn; cases hn
      · intro hh; omega
    · rw [if_neg hgt]
      by_cases hu : Contains c.URL "&list=".toList = true ∨ Contains c.URL "/user/".toList = true
      · rw [if_pos hu]
        constructor
        · intro hn; cases hn
        · rintro ⟨_, h1, h2, _⟩
          rcases hu with hu | hu
          · rw [h1] at hu; cases hu
          · rw [h2] at hu; cases hu
      · rw [if_neg hu]
        have h1 : Contains c.URL "&list=".toList = false := by
          cases hc : Contains c.URL "&list=".toList
          · rfl
          · exact absurd (Or.inl hc) hu
        have h2 : Contains c.URL "/user/".toList = false := by
          cases hc : Contains c.URL "/user/".toList
          · rfl
          · exact absurd (Or.inr hc) hu
        constructor
        · intro hm
          refine ⟨by omega, h1, h2, ?_⟩
          cases hs : track.Seems c.Title with
          | none => rfl
          | some e => rw [hs] at hm; cases hm
        · rintro ⟨_, _, _, hs⟩
          rw [hs]; rfl
  refine ⟨main, ?_, ?_⟩
  · intro hle h1 h2
    rw [Match_eq, if_neg (by omega), if_neg]
    rintro (hu | hu)
    · rw [h1] at hu; cases hu
    · rw [h2] at hu; cases hu
  · intro hr
    rw [main, durationDelta_exact _ _ hr]

/-- C5 (amended): for every candidate and track whose durations differ by at
most `2 ^ 53` seconds (so that the subtraction of Go `int`s does not wrap
around and the conversion to `float64` is exact), `Match` returns nil if and
only if all three hold: the duration delta
`|track.Duration - candidate.Duration|` is within the tolerance, the URL of
the candidate contains neither `&list=` nor `/user/`, and the title check of
the track returns no error on the title of the candidate; and when the first
two hold, `Match` returns exactly the outcome of the title check. -/
theorem Match_accepts_iff (sys : System) (c : YouTubeTrack) (track : Track)
    (h : (track.Duration - c.Duration).natAbs ≤ 2 ^ 53) :
    (c.Match sys track = none ↔
      (((track.Duration - c.Duration).natAbs : Int) ≤ sys.YOUTUBE_DURATION_TOLERANCE ∧
        Contains c.URL "&list=".toList = false ∧ Contains c.URL "/user/".toList = false ∧
        track.Seems c.Title = none)) ∧
    (((track.Duration - c.Duration).natAbs : Int) ≤ sys.YOUTUBE_DURATION_TOLERANCE →
      Contains c.URL "&list=".toList = false → Contains c.URL "/user/".toList = false →
      c.Match sys track = (track.Seems c.Title).map Error.seems) := by
  have hd := durationDelta_exact track.Duration c.Duration h
  obtain ⟨h1, h2, _⟩ := Match_none_iff_computed sys c track
  rw [hd] at h1 h2
  exact ⟨h1, h2⟩

/-- C5 (witness): a candidate one second longer than the track, with a plain
video URL, gets the outcome of the title check, which is nil. -/
theorem Match_accepts_iff_witness :
    (sampleCandidate "https://www.youtube.com/watch?v=abc123".toList 226).Match
      sampleSystem sampleTrack = none :=
  (Match_accepts_iff sampleSystem
    (sampleCandidate "https://www.youtube.com/watch?v=abc123".toList 226) sampleTrack
    (by decide)).2 (by decide) (by decide) (by decide)

/-- C5 (counterexample): the track lasts `-2 ^ 63` seconds and the candidate
`2 ^ 63 - 1`, both values of a Go `int`; the duration delta `2 ^ 64 - 1` is not
within the tolerance 20, so not all three conditions hold; yet `Match` returns
nil, because the subtraction wraps around to 1. -/
theorem Match_accepts_beyond_tolerance :
    minInt ≤ (-9223372036854775808 : Int) ∧ (9223372036854775807 : Int) ≤ maxInt ∧
    ¬ ((((-9223372036854775808 : Int) - 9223372036854775807).natAbs : Int) ≤
      sampleSystem.YOUTUBE_DURATION_TOLERANCE) ∧
    Contains "https://www.youtube.com/watch?v=abc123".toList "&list=".toList = false ∧
    Contains "https://www.youtube.com/watch?v=abc123".toList "/user/".toList = false ∧
    wrapInt ((-9223372036854775808 : Int) - 9223372036854775807) = 1 ∧
    (sampleCandidate "https://www.youtube.com/watch?v=abc123".toList
        9223372036854775807).Match sampleSystem
      { sampleTrack with Duration := -9223372036854775808 } = none := by
  decide

/-! ## The cursor: `HasNext` and `Next` -/

theorem SelectionEq_natCast {α : Type} (l : List α) (k : Nat) :
    SelectionEq l (k : Int) = l[k]? := by
  unfold SelectionEq
  have h0 : ¬ ((k : Int) < 0) := by omega
  simp only [h0, if_false, or_false]
  by_cases hk : (k : Int) ≥ (l.length : Int)
  · rw [if_pos hk]
    exact (List.getElem?_eq_none (by omega)).symm
  · rw [if_neg hk]
    simp

theorem guarded_entry (l : List GoString) (k : Nat) :
    (if (k : Int) < (l.length : Int) then some ((SelectionEq l (k : Int)).getD []) else none) =
      l[k]? := by
  rw [SelectionEq_natCast]
  by_cases hk : (k : Int) < (l.length : Int)
  · have hk2 : k < l.length := by omega
    rw [if_pos hk, List.getElem?_eq_getElem hk2]
    rfl
  · rw [if_neg hk]
    exact (List.getElem?_eq_none (by omega)).symm

theorem HasNext_iff (s : YouTubeTracks) :
    s.HasNext = true ↔ s.SelectionPointer + 1 < (s.Selection.length : Int) := by
  unfold YouTubeTracks.HasNext
  exact decide_eq_true_iff

/-- A call of `Next` with the cursor at `c` and a link entry at `c + 1` moves
the cursor to `c + 1` and extracts the three entries at `c + 1`. -/
theorem Next_of_cursor (sys : System) (s : YouTubeTracks) (c : Nat)
    (hp : s.SelectionPointer = (c : Int)) (h : c + 1 < s.Selection.length) :
    s.Next sys =
      ({ s with SelectionPointer := ((c + 1 : Nat) : Int) },
        pullEntry sys s.Track s.Selection[c + 1]? s.SelectionDesc[c + 1]?
          s.SelectionDuration[c + 1]?) := by
  have hn : s.HasNext = true := by rw [HasNext_iff, hp]; omega
  have hq : s.SelectionPointer + 1 = ((c + 1 : Nat) : Int) := by rw [hp]; rfl
  unfold YouTubeTracks.Next
  rw [if_pos hn]
  simp only [YouTubeTracks.advance]
  rw [hq, guarded_entry, guarded_entry, SelectionEq_natCast]

/-- A call of `Next` on a result set without a next entry changes nothing. -/
theorem Next_of_not_HasNext (sys : System) (s : YouTubeTracks) (h : s.HasNext = false) :
    s.Next sys = (s, Pull.error Error.noMoreResults) := by
  unfold YouTubeTracks.Next
  rw [h]
  rfl

/-- The result set after `n` calls from a fresh one: only the cursor moved, to
`n` or to the last index. -/
theorem nextN_fresh (sys : System) (track : Track) (doc : Document) (n : Nat) :
    nextN sys n (fresh track doc) =
      { fresh track doc with
        SelectionPointer := ((min n (doc.video.length - 1) : Nat) : Int) } := by
  induction n with
  | zero => simp [nextN, fresh]
  | succ n ih =>
    rw [nextN, ih]
    by_cases hlt : n + 1 < doc.video.length
    · rw [Next_of_cursor sys _ (min n (doc.video.length - 1)) rfl
        (by show min n (doc.video.length - 1) + 1 < doc.video.length; omega)]
      have : min n (doc.video.length - 1) + 1 = min (n + 1) (doc.video.length - 1) := by omega
      simp only [this]
    · rw [Next_of_not_HasNext]
      · have : min n (doc.video.length - 1) = min (n + 1) (doc.video.length - 1) := by omega
        simp only [this]
      · rw [Bool.eq_false_iff, Ne, HasNext_iff]
        show ¬ (((min n (doc.video.length - 1) : Nat) : Int) + 1 < (doc.video.length : Int))
        omega

/-- C6 (the code at the failing input): on a fresh result set with a single,
well-formed link entry `HasNext` is false and `Next` reports that no results
are left; on a fresh result set of three entries the first call of `Next`
moves the cursor to 1 and returns the second entry of the document
(`abc123`), not the first (the playlist `xyz`). -/
theorem fresh_Next_skips_first_entry :
    (fresh sampleTrack oneEntryDoc).SelectionPointer = 0 ∧
    (fresh sampleTrack oneEntryDoc).HasNext = false ∧
    (((fresh sampleTrack oneEntryDoc).Next sampleSystem).2).error? =
      some Error.noMoreResults ∧
    (fresh sampleTrack sampleDoc).HasNext = true ∧
    ((fresh sampleTrack sampleDoc).Next sampleSystem).1.SelectionPointer = 1 ∧
    (((fresh sampleTrack sampleDoc).Next sampleSystem).2).idURL? =
      some ("abc123".toList, "https://www.youtube.com/watch?v=abc123".toList) ∧
    (pullEntry sampleSystem sampleTrack sampleDoc.video[0]? sampleDoc.desc[0]?
      sampleDoc.duration[0]?).error? =
      some (Error.playlistURL "/watch?v=xyz&list=PL1".toList) := by
  decide

/-- C7: for every fresh result set and every `N` such that the link view has an
entry at each of the positions `1..N` (positions are the indices that the
cursor takes), the `k`-th of `N` consecutive calls of `Next` examines position
`k`: its outcome, a candidate, a per-entry error or a fault, is the extraction
of the link, description and duration entries at index `k`; it leaves the
cursor equal to `k`; and no other of the `N` calls examines position `k`. -/
theorem Next_visits_positions (sys : System) (track : Track) (doc : Document) (N : Nat)
    (h : ∀ i, 1 ≤ i → i ≤ N → (doc.video[i]?).isSome = true)
    (k : Nat) (hk1 : 1 ≤ k) (hkN : k ≤ N) :
    (nextN sys (k - 1) (fresh track doc)).examined = some (k : Int) ∧
    kthPull sys k (fresh track doc) =
      pullEntry sys track doc.video[k]? doc.desc[k]? doc.duration[k]? ∧
    (nextN sys k (fresh track doc)).SelectionPointer = (k : Int) ∧
    (nextN sys k (fresh track doc)).Selection = doc.video ∧
    (nextN sys k (fresh track doc)).SelectionDesc = doc.desc ∧
    (nextN sys k (fresh track doc)).SelectionDuration = doc.duration ∧
    (∀ j, 1 ≤ j → j ≤ N → j ≠ k →
      (nextN sys (j - 1) (fresh track doc)).examined ≠
        (nextN sys (k - 1) (fresh track doc)).examined) := by
  have hlen : ∀ i, 1 ≤ i → i ≤ N → i < doc.video.length := by
    intro i h1 h2
    have := h i h1 h2
    rw [Option.isSome_iff_exists] at this
    obtain ⟨a, ha⟩ := this
    exact (List.getElem?_eq_some.1 ha).1
  have hex : ∀ i, 1 ≤ i → i ≤ N →
      (nextN sys (i - 1) (fresh track doc)).examined = some (i : Int) := by
    intro i h1 h2
    have hi := hlen i h1 h2
    rw [nextN_fresh]
    have hm : min (i - 1) (doc.video.length - 1) = i - 1 := by omega
    rw [hm]
    unfold YouTubeTracks.examined
    have hn : YouTubeTracks.HasNext
        { fresh track doc with SelectionPointer := ((i - 1 : Nat) : Int) } = true := by
      rw [HasNext_iff]
      show ((i - 1 : Nat) : Int) + 1 < (doc.video.length : Int)
      omega
    rw [if_pos hn]
    show some (((i - 1 : Nat) : Int) + 1) = some (i : Int)
    congr 1
    omega
  have hk := hlen k hk1 hkN
  refine ⟨hex k hk1 hkN, ?_, ?_, ?_, ?_, ?_, ?_⟩
  · unfold kthPull
    rw [nextN_fresh]
    have hm : min (k - 1) (doc.video.length - 1) = k - 1 := by omega
    rw [hm, Next_of_cursor sys _ (k - 1) rfl
      (by show k - 1 + 1 < doc.video.length; omega)]
    have hk2 : k - 1 + 1 = k := by omega
    simp only [hk2]
    rfl
  · rw [nextN_fresh]
    have hm : min k (doc.video.length - 1) = k := by omega
    rw [hm]
  · rw [nextN_fresh]; rfl
  · rw [nextN_fresh]; rfl
  · rw [nextN_fresh]; rfl
  · intro j hj1 hjN hjk
    rw [hex j hj1 hjN, hex k hk1 hkN]
    intro he
    have := Option.some.inj he
    omega

/-- C7 (witness): the second of two calls on the sample document, which has
entries at the positions 1 and 2. -/
theorem Next_visits_positions_witness :
    (nextN sampleSystem 2 (fresh sampleTrack sampleDoc)).SelectionPointer = 2 :=
  (Next_visits_positions sampleSystem sampleTrack sampleDoc 2
    (by intro i h1 h2
        have hi : i = 1 ∨ i = 2 := by omega
        rcases hi with hi | hi <;> subst hi <;> rfl)
    2 (by decide) (by decide)).2.2.1

/-- C8: on every result set on which `HasNext` is false, `Next` returns the
error whose text is "No more results left on page." and leaves the cursor and
the three views unchanged, so that every later call of `Next` fails the same
way and leaves the same result set. -/
theorem Next_exhausted (sys : System) (s : YouTubeTracks) (h : s.HasNext = false) :
    s.Next sys = (s, Pull.error Error.noMoreResults) ∧
    Error.noMoreResults.message = "No more results left on page.".toList ∧
    (∀ n, nextN sys n s = s ∧
      (nextN sys n s).Next sys = (s, Pull.error Error.noMoreResults)) := by
  refine ⟨Next_of_not_HasNext sys s h, rfl, ?_⟩
  intro n
  have hn : nextN sys n s = s := by
    induction n with
    | zero => rfl
    | succ n ih => rw [nextN, ih, Next_of_not_HasNext sys s h]
  rw [hn]
  exact ⟨rfl, Next_of_not_HasNext sys s h⟩

/-- C8 (witness): the sample result set after its two possible pulls. -/
theorem Next_exhausted_witness :
    (nextN sampleSystem 5 (nextN sampleSystem 2 (fresh sampleTrack sampleDoc))).SelectionPointer
      = 2 :=
  (congrArg YouTubeTracks.SelectionPointer
    ((Next_exhausted sampleSystem (nextN sampleSystem 2 (fresh sampleTrack sampleDoc))
      (by decide)).2.2 5).1).trans (by decide)

/-- C9: on every result set reached from a fresh one by any number of calls of
`Next`, the cursor is a natural number `c`, `HasNext` is true if and only if
the link view has an entry at position `c + 1`, it is false if and only if the
cursor has reached the last link index (`len - 1 ≤ c`), and when the link view
is not empty that is exactly `c = len - 1`. -/
theorem HasNext_iff_entry (sys : System) (track : Track) (doc : Document) (n : Nat) :
    ∃ c : Nat, (nextN sys n (fresh track doc)).SelectionPointer = (c : Int) ∧
      (nextN sys n (fresh track doc)).Selection = doc.video ∧
      ((nextN sys n (fresh track doc)).HasNext = true ↔ (doc.video[c + 1]?).isSome = true) ∧
      ((nextN sys n (fresh track doc)).HasNext = false ↔
        (doc.video.length : Int) - 1 ≤ (c : Int)) ∧
      (doc.video ≠ [] →
        ((nextN sys n (fresh track doc)).HasNext = false ↔ c + 1 = doc.video.length)) := by
  refine ⟨min n (doc.video.length - 1), ?_, ?_, ?_, ?_, ?_⟩
  · rw [nextN_fresh]
  · rw [nextN_fresh]; rfl
  · rw [nextN_fresh, HasNext_iff]
    show ((min n (doc.video.length - 1) : Nat) : Int) + 1 < (doc.video.length : Int) ↔ _
    rw [Option.isSome_iff_exists]
    constructor
    · intro hlt
      have h2 : min n (doc.video.length - 1) + 1 < doc.video.length := by omega
      exact ⟨_, List.getElem?_eq_getElem h2⟩
    · rintro ⟨a, ha⟩
      have := (List.getElem?_eq_some.1 ha).1
      omega
  · rw [nextN_fresh, Bool.eq_false_iff, Ne, HasNext_iff]
    show ¬ (((min n (doc.video.length - 1) : Nat) : Int) + 1 < (doc.video.length : Int)) ↔ _
    omega
  · intro hne
    have hpos : 0 < doc.video.length := List.length_pos.2 hne
    rw [nextN_fresh, Bool.eq_false_iff, Ne, HasNext_iff]
    show ¬ (((min n (doc.video.length - 1) : Nat) : Int) + 1 < (doc.video.length : Int)) ↔ _
    omega

/-- C9 (witness): the sample result set after one call still has a next entry,
the one at position 2. -/
theorem HasNext_iff_entry_witness :
    ∃ c : Nat, (nextN sampleSystem 1 (fresh sampleTrack sampleDoc)).SelectionPointer = (c : Int) ∧
      ((nextN sampleSystem 1 (fresh sampleTrack sampleDoc)).HasNext = true ↔
        (sampleDoc.video[c + 1]?).isSome = true) := by
  obtain ⟨c, h1, _, h3, _⟩ := HasNext_iff_entry sampleSystem sampleTrack sampleDoc 1
  exact ⟨c, h1, h3⟩

/-! ## Decimal numerals and `Atoi` -/

theorem digitChar_toNat (d : Nat) (hd : d < 10) : (digitChar d).toNat = 48 + d := by
  interval_cases d <;> rfl

theorem utf8Rune_digitChar (d : Nat) (hd : d < 10) : utf8Rune (digitChar d) = [48 + d] := by
  interval_cases d <;> rfl

theorem digitChar_ne_colon (d : Nat) (hd : d < 10) : digitChar d ≠ ':' := by
  interval_cases d <;> decide

theorem digitChar_ne_space (d : Nat) (hd : d < 10) : digitChar d ≠ ' ' := by
  interval_cases d <;> decide

theorem utf8_append (a b : GoString) : utf8 (a ++ b) = utf8 a ++ utf8 b := by
  induction a with
  | nil => rfl
  | cons c a ih => simp [utf8, ih]

theorem digitsValue_append (a : Nat) (xs ys : List Nat) :
    digitsValue a (xs ++ ys) = (digitsValue a xs).bind (fun v => digitsValue v ys) := by
  induction xs generalizing a with
  | nil => rfl
  | cons x xs ih =>
    by_cases hx : 48 ≤ x ∧ x ≤ 57
    · simp [digitsValue, hx, ih]
    · simp [digitsValue, hx]

theorem decimalAux_append (fuel n : Nat) (acc : GoString) :
    decimalAux fuel n acc = decimalAux fuel n [] ++ acc := by
  induction fuel generalizing n acc with
  | zero => rfl
  | succ fuel ih =>
    unfold decimalAux
    by_cases h0 : n / 10 = 0
    · simp [h0]
    · simp only [h0, if_false]
      rw [ih (n / 10) (digitChar (n % 10) :: acc), ih (n / 10) [digitChar (n % 10)]]
      simp

theorem decimalAux_digits (fuel n : Nat) (c : Char) (hc : c ∈ decimalAux fuel n []) :
    ∃ d, d < 10 ∧ c = digitChar d := by
  induction fuel generalizing n with
  | zero => simp [decimalAux] at hc
  | succ fuel ih =>
    unfold decimalAux at hc
    by_cases h0 : n / 10 = 0
    · simp only [h0, if_true, List.mem_singleton] at hc
      exact ⟨n % 10, Nat.mod_lt _ (by decide), hc⟩
    · simp only [h0, if_false] at hc
      rw [decimalAux_append] at hc
      rcases List.mem_append.1 hc with h | h
      · exact ih (n / 10) h
      · exact ⟨n % 10, Nat.mod_lt _ (by decide), List.mem_singleton.1 h⟩

theorem decimalAux_value (fuel n : Nat) (h : n < fuel) :
    digitsValue 0 (utf8 (decimalAux fuel n [])) = some n := by
  induction fuel generalizing n with
  | zero => omega
  | succ fuel ih =>
    unfold decimalAux
    by_cases h0 : n / 10 = 0
    · have hn : n % 10 = n := by omega
      have hlt : n < 10 := by omega
      simp only [h0, if_true, hn, utf8, utf8Rune_digitChar n hlt, List.append_nil]
      have : 48 ≤ 48 + n ∧ 48 + n ≤ 57 := by omega
      simp [digitsValue, this]
    · simp only [h0, if_false]
      rw [decimalAux_append, utf8_append, digitsValue_append, ih (n / 10) (by omega)]
      have hm : n % 10 < 10 := Nat.mod_lt _ (by decide)
      simp only [utf8, utf8Rune_digitChar _ hm, List.append_nil, Option.some_bind]
      have : 48 ≤ 48 + n % 10 ∧ 48 + n % 10 ≤ 57 := by omega
      simp only [digitsValue, this, and_self, if_true]
      congr 1
      omega

theorem decimalAux_ne_nil (fuel n : Nat) : decimalAux (fuel + 1) n [] ≠ [] := by
  unfold decimalAux
  by_cases h0 : n / 10 = 0
  · simp [h0]
  · simp only [h0, if_false]
    rw [decimalAux_append]
    simp

theorem decimal_no_colon (n : Nat) : ':' ∉ decimal n := by
  intro hc
  obtain ⟨d, hd, he⟩ := decimalAux_digits _ _ _ hc
  exact digitChar_ne_colon d hd he.symm

theorem decimal_no_space (n : Nat) : ' ' ∉ decimal n := by
  intro hc
  obtain ⟨d, hd, he⟩ := decimalAux_digits _ _ _ hc
  exact digitChar_ne_space d hd he.symm

/-- `Atoi` on a text of decimal digits whose value fits an `int`. -/
theorem Atoi_of_digitsValue (bs : List Nat) (n : Nat) (hne : bs ≠ [])
    (hv : digitsValue 0 bs = some n) (hn : n < 2 ^ 63) : Atoi bs = some (n : Int) := by
  cases bs with
  | nil => exact absurd rfl hne
  | cons b r =>
    have hb : 48 ≤ b ∧ b ≤ 57 := by
      by_contra hb
      simp [digitsValue, hb] at hv
    have h45 : b ≠ 45 := by omega
    have h43 : b ≠ 43 := by omega
    unfold Atoi
    have hneg : (match b :: r with
        | 45 :: _ => true
        | _ => false) = false := by
      split
      · rename_i heq; injection heq with h1 h2; exact absurd h1 h45
      · rfl
    have hds : (match b :: r with
        | 45 :: r => r
        | 43 :: r => r
        | _ => b :: r) = b :: r := by
      split
      · rename_i heq; injection heq with h1 h2; exact absurd h1 h45
      · rename_i heq; injection heq with h1 h2; exact absurd h1 h43
      · rfl
    simp only [hneg, hds, hv, List.isEmpty_cons, Bool.false_eq_true, if_false]
    unfold minInt maxInt
    rw [if_pos (by omega)]

theorem Atoi_decimal (n : Nat) (hn : n < 2 ^ 63) : Atoi (utf8 (decimal n)) = some (n : Int) := by
  apply Atoi_of_digitsValue _ _ _ (decimalAux_value _ _ (Nat.lt_succ_self n)) hn
  intro he
  have hv := decimalAux_value (n + 1) n (Nat.lt_succ_self n)
  have hd := decimalAux_ne_nil n n
  cases hdec : decimalAux (n + 1) n [] with
  | nil => exact hd hdec
  | cons c cs =>
    rw [hdec, utf8] at he
    obtain ⟨d, hd10, hcd⟩ := decimalAux_digits (n + 1) n c (by rw [hdec]; simp)
    rw [hcd, utf8Rune_digitChar d hd10] at he
    simp at he

/-! ## Duration parsing -/

/-- Lines 86-96 on a text of the shape `Duration: m:ss...`. -/
theorem parseLength_wellformed (m d1 d2 : Nat) (extra : GoString)
    (hd1 : d1 < 10) (hd2 : d2 < 10) (hrange : m * 60 + (10 * d1 + d2) < 2 ^ 63) :
    parseLength ("Duration: ".toList ++ decimal m ++ ":".toList ++
        [digitChar d1, digitChar d2] ++ extra) =
      some (((m * 60 + (10 * d1 + d2) : Nat) : Int), true) := by
  have hc1 := digitChar_ne_colon d1 hd1
  have hc2 := digitChar_ne_colon d2 hd2
  have hs1 := digitChar_ne_space d1 hd1
  -- the text after the first `": "`
  have e0 : "Duration: ".toList ++ decimal m ++ ":".toList ++
      [digitChar d1, digitChar d2] ++ extra =
      "Duration".toList ++ (": ".toList ++
        ((decimal m ++ ":".toList) ++ ([digitChar d1, digitChar d2] ++ extra))) := by
    have : "Duration: ".toList = "Duration".toList ++ ": ".toList := rfl
    rw [this]
    simp only [List.append_assoc]
  obtain ⟨hi0, hcont, _⟩ := cut_at_marker "Duration".toList
    (": ".toList ++ ((decimal m ++ ":".toList) ++ ([digitChar d1, digitChar d2] ++ extra)))
    ": ".toList ':' [' '] rfl (by decide) (by decide)
    (by rw [HasPrefix_iff]; exact List.prefix_append _ _)
  have hdrop : ("Duration".toList ++ (": ".toList ++
      ((decimal m ++ ":".toList) ++ ([digitChar d1, digitChar d2] ++ extra)))).drop
      ("Duration".toList.length + ": ".toList.length) =
      (decimal m ++ ":".toList) ++ ([digitChar d1, digitChar d2] ++ extra) := by
    rw [← List.append_assoc, List.drop_left']
    simp
  -- the segment between the first and the second `": "`
  have hnosp : ' ' ∉ decimal m ++ ":".toList := by
    intro hmem
    rcases List.mem_append.1 hmem with h | h
    · exact decimal_no_space m h
    · revert h; decide
  have hseg : firstPiece ((decimal m ++ ":".toList) ++
      ([digitChar d1, digitChar d2] ++ extra)) ": ".toList =
      decimal m ++ (":".toList ++ ([digitChar d1, digitChar d2] ++
        firstPiece extra ": ".toList)) := by
    rw [firstPiece_append _ _ _ (noEarly_of_boundary (decimal m ++ ":".toList)
      ([digitChar d1, digitChar d2] ++ extra) ": ".toList ':' [' '] rfl
      (Contains_false_of_not_mem _ _ ' ' (by decide) hnosp)
      (Or.inr ⟨digitChar d1, digitChar d2 :: extra, rfl, by simpa using hs1⟩))]
    rw [firstPiece_append _ _ _ (noEarly_of_head [digitChar d1, digitChar d2] extra
      ": ".toList ':' [' '] rfl (by
        intro hmem
        simp only [List.mem_cons, List.mem_singleton, List.not_mem_nil, or_false] at hmem
        rcases hmem with h | h
        · exact hc1 h.symm
        · exact hc2 h.symm))]
    simp only [List.append_assoc]
  -- minutes and seconds
  obtain ⟨hi1, _, hmin⟩ := cut_at_marker (decimal m)
    (":".toList ++ ([digitChar d1, digitChar d2] ++ firstPiece extra ": ".toList))
    ":".toList ':' [] rfl
    (Contains_false_of_not_mem _ _ ':' (by decide) (decimal_no_colon m)) (by decide)
    (by rw [HasPrefix_iff]; exact List.prefix_append _ _)
  have hdrop1 : (decimal m ++ (":".toList ++ ([digitChar d1, digitChar d2] ++
      firstPiece extra ": ".toList))).drop ((decimal m).length + ":".toList.length) =
      [digitChar d1, digitChar d2] ++ firstPiece extra ": ".toList := by
    rw [← List.append_assoc, List.drop_left']
    simp
  have hsec : firstPiece ([digitChar d1, digitChar d2] ++ firstPiece extra ": ".toList)
      ":".toList =
      [digitChar d1, digitChar d2] ++
        firstPiece (firstPiece extra ": ".toList) ":".toList := by
    rw [firstPiece_append _ _ _ (noEarly_of_head [digitChar d1, digitChar d2] _
      ":".toList ':' [] rfl (by
        intro hmem
        simp only [List.mem_cons, List.mem_singleton, List.not_mem_nil, or_false] at hmem
        rcases hmem with h | h
        · exact hc1 h.symm
        · exact hc2 h.symm))]
  have hbytes : sliceTo (utf8 ([digitChar d1, digitChar d2] ++
      firstPiece (firstPiece extra ": ".toList) ":".toList)) 2 = some [48 + d1, 48 + d2] := by
    rw [utf8_append]
    simp only [utf8, utf8Rune_digitChar d1 hd1, utf8Rune_digitChar d2 hd2]
    unfold sliceTo
    simp
  have hsecv : Atoi [48 + d1, 48 + d2] = some ((10 * d1 + d2 : Nat) : Int) := by
    apply Atoi_of_digitsValue _ _ (by simp) _ (by omega)
    have h1 : 48 ≤ 48 + d1 ∧ 48 + d1 ≤ 57 := by omega
    have h2 : 48 ≤ 48 + d2 ∧ 48 + d2 ≤ 57 := by omega
    simp only [digitsValue, h1, h2, and_self, if_true]
    congr 1
    omega
  have hmv : Atoi (utf8 (decimal m)) = some (m : Int) := Atoi_decimal m (by omega)
  rw [e0]
  unfold parseLength
  rw [hcont]
  simp only [if_true]
  rw [Split_one _ _ (by decide), hi0]
  simp only [Option.map_some']
  rw [hdrop, hseg, Split_zero _ _ (by decide), hmin]
  simp only []
  rw [hmv]
  simp only []
  rw [Split_one _ _ (by decide), hi1]
  simp only [Option.map_some']
  rw [hdrop1, hsec, hbytes]
  simp only []
  rw [hsecv]
  simp only []
  have hw1 : wrapInt ((m : Int) * 60) = (m : Int) * 60 :=
    wrapInt_of_range _ (by omega) (by omega)
  rw [hw1, wrapInt_of_range _ (by omega) (by omega)]
  rfl

/-- C10 (amended): for every natural number `m` and decimal digits `d1 d2` with
`m * 60 + (10 * d1 + d2)` within the range of a Go `int` (below `2 ^ 63`), an
entry at the position after the cursor with URL, title and uploader present,
a URL that is neither rejected as a playlist nor as advertising and on which
`IdFromUrl` is defined, and whose trimmed duration text is
`"Duration: " ++ decimal m ++ ":" ++ d1 d2`, optionally followed by further
characters, is pulled by `Next` as a candidate with
`Duration = m * 60 + (10 * d1 + d2)`. -/
theorem Next_parses_duration (sys : System) (s : YouTubeTracks) (c : Nat)
    (href title user text extra id : GoString) (m d1 d2 : Nat)
    (hp : s.SelectionPointer = (c : Int))
    (hlink : s.Selection[c + 1]? = some ⟨some href, some title⟩)
    (hdesc : s.SelectionDesc[c + 1]? = some user)
    (hdur : s.SelectionDuration[c + 1]? = some text)
    (htext : TrimSpace text = "Duration: ".toList ++ decimal m ++ ":".toList ++
      [digitChar d1, digitChar d2] ++ extra)
    (hd1 : d1 < 10) (hd2 : d2 < 10) (hrange : m * 60 + (10 * d1 + d2) < 2 ^ 63)
    (hplay : ¬ (Contains (ToLower href) "youtu.be".toList = false ∧
      Contains (ToLower href) "&list=".toList = true))
    (hadv : ¬ (Contains (ToLower href) "youtu.be".toList = false ∧
      Contains (ToLower href) "watch?v=".toList = false))
    (hid : IdFromUrl (sys.YOUTUBE_VIDEO_PREFIX ++ href) = some id) :
    s.Next sys =
      ({ s with SelectionPointer := ((c + 1 : Nat) : Int) },
        Pull.track
          { Track := s.Track
            ID := id
            URL := sys.YOUTUBE_VIDEO_PREFIX ++ href
            Title := title
            User := TrimSpace user
            Duration := ((m * 60 + (10 * d1 + d2) : Nat) : Int) }) := by
  have hlen : c + 1 < s.Selection.length := (List.getElem?_eq_some.1 hlink).1
  rw [Next_of_cursor sys s c hp hlen, hlink, hdesc, hdur]
  congr 1
  unfold pullEntry itemLength
  simp only [Option.some_bind, Option.getD_some, Option.isSome_some]
  rw [htext, parseLength_wellformed m d1 d2 extra hd1 hd2 hrange]
  simp only [Option.some_bind, Option.getD_some, Option.isSome_some, Bool.and_self,
    Bool.not_true, Bool.false_eq_true, if_false]
  have h1 : (!Contains (ToLower href) "youtu.be".toList &&
      Contains (ToLower href) "&list=".toList) = false := by
    cases ha : Contains (ToLower href) "youtu.be".toList <;>
      cases hb : Contains (ToLower href) "&list=".toList <;> simp_all
  have h2 : (!Contains (ToLower href) "youtu.be".toList &&
      !Contains (ToLower href) "watch?v=".toList) = false := by
    cases ha : Contains (ToLower href) "youtu.be".toList <;>
      cases hb : Contains (ToLower href) "watch?v=".toList <;> simp_all
  rw [h1, h2, hid]
  rfl

/-- C10 (witness): the entry at position 2 of the sample document, with the
text `Duration: 0:09`, is pulled with a duration of 9 seconds; and the
durations of `Duration: 3:45` and `Duration: 0:09` are 225 and 9. -/
theorem Next_parses_duration_witness :
    (((fresh sampleTrack sampleDoc).advance.Next sampleSystem).2).duration? = some 9 ∧
    parseLength "Duration: 3:45".toList = some (225, true) ∧
    parseLength "Duration: 0:09".toList = some (9, true) :=
  ⟨(congrArg (fun r => (Prod.snd r).duration?)
    (Next_parses_duration sampleSystem (fresh sampleTrack sampleDoc).advance 1
      "/watch?v=def456".toList "Artist - Song (live)".toList "other".toList
      "Duration: 0:09".toList [] "def456".toList 0 0 9 rfl rfl rfl rfl (by decide)
      (by decide) (by decide) (by decide) (by decide) (by decide) (by decide))).trans
    (by decide), by decide, by decide⟩

/-- C10 (counterexample): the entries at the positions 1 and 2 have URL, title
and uploader present, a plain video URL, and the duration texts
`"Duration: " ++ decimal m ++ ":" ++ d1 d2` for `m = 2 ^ 63` with `00`, and for
`m = 2 ^ 62` with `45`.  The first pull fails with the malformed-entry error
(the minutes do not fit an `int`), the second returns a candidate of 45
seconds (the product `m * 60` wraps around to 0), not of `m * 60 + 45`. -/
theorem Next_duration_out_of_range :
    "Duration: 9223372036854775808:00".toList =
      "Duration: ".toList ++ decimal (2 ^ 63) ++ ":".toList ++ [digitChar 0, digitChar 0] ∧
    (((fresh sampleTrack longDoc).Next sampleSystem).2).error? =
      some (Error.nonStandard true true true false) ∧
    (((fresh sampleTrack longDoc).Next sampleSystem).2).duration? = none ∧
    "Duration: 4611686018427387904:45".toList =
      "Duration: ".toList ++ decimal (2 ^ 62) ++ ":".toList ++ [digitChar 4, digitChar 5] ∧
    (((fresh sampleTrack longDoc).advance.Next sampleSystem).2).duration? = some 45 ∧
    (45 : Int) ≠ ((2 ^ 62 * 60 + 45 : Nat) : Int) := by
  decide

/-! ## One pull: completeness, rejections, faults -/

/-- The outcome of a call of `Next`, on any result set. -/
theorem Next_snd (sys : System) (s : YouTubeTracks) :
    (s.Next sys).2 =
      if s.HasNext = true then
        pullEntry sys s.Track (SelectionEq s.Selection (s.SelectionPointer + 1))
          (if s.SelectionPointer + 1 < (s.SelectionDesc.length : Int) then
            some ((SelectionEq s.SelectionDesc (s.SelectionPointer + 1)).getD []) else none)
          (if s.SelectionPointer + 1 < (s.SelectionDuration.length : Int) then
            some ((SelectionEq s.SelectionDuration (s.SelectionPointer + 1)).getD [])
          else none)
      else Pull.error Error.noMoreResults := by
  unfold YouTubeTracks.Next
  by_cases h : s.HasNext = true
  · rw [if_pos h, if_pos h]; rfl
  · rw [if_neg h, if_neg h]

/-- Lines 98-118 once the duration block has run without a fault. -/
theorem pullEntry_of_itemLength (sys : System) (track : Track) (item : Option LinkNode)
    (item_desc item_duration : Option GoString) (len : Int) (ok : Bool)
    (h : itemLength item_duration = some (len, ok)) :
    pullEntry sys track item item_desc item_duration =
      if (!((item.bind (·.href)).isSome && (item.bind (·.title)).isSome &&
          item_desc.isSome && ok)) = true then
        Pull.error (Error.nonStandard (item.bind (·.href)).isSome
          (item.bind (·.title)).isSome item_desc.isSome ok)
      else if (!Contains (ToLower ((item.bind (·.href)).getD [])) "youtu.be".toList &&
          Contains (ToLower ((item.bind (·.href)).getD [])) "&list=".toList) = true then
        Pull.error (Error.playlistURL ((item.bind (·.href)).getD []))
      else if (!Contains (ToLower ((item.bind (·.href)).getD [])) "youtu.be".toList &&
          !Contains (ToLower ((item.bind (·.href)).getD [])) "watch?v=".toList) = true then
        Pull.error (Error.advertisingURL ((item.bind (·.href)).getD []))
      else
        match IdFromUrl (sys.YOUTUBE_VIDEO_PREFIX ++ (item.bind (·.href)).getD []) with
        | none => Pull.fault
        | some id =>
          Pull.track
            { Track := track
              ID := id
              URL := sys.YOUTUBE_VIDEO_PREFIX ++ (item.bind (·.href)).getD []
              Title := (item.bind (·.title)).getD []
              User := match item_desc with
                | none => "UNKNOWN".toList
                | some d => TrimSpace d
              Duration := len } := by
  unfold pullEntry
  simp only [h]

/-- An entry whose duration block leaves `item_length_ok` false fails with the
malformed-entry error, whatever its other fields are. -/
theorem pullEntry_duration_missing (sys : System) (track : Track) (item : Option LinkNode)
    (item_desc item_duration : Option GoString) (len : Int)
    (h : itemLength item_duration = some (len, false)) :
    pullEntry sys track item item_desc item_duration =
      Pull.error (Error.nonStandard (item.bind (·.href)).isSome
        (item.bind (·.title)).isSome item_desc.isSome false) := by
  rw [pullEntry_of_itemLength sys track item item_desc item_duration len false h]
  simp

/-- C11: for every entry whose trimmed duration text does not contain `": "`,
or whose text after `": "` (the piece `Split(text, ": ")[1]`) has a minutes
segment that is not a number for `strconv.Atoi`, or has a seconds segment of
at least two bytes whose first two are not a number for `strconv.Atoi`, the
duration block leaves the duration missing and `Next` fails with the
malformed-entry error that reports the duration as missing (`false`),
whatever the other fields are; no candidate, in particular none with a zero
or default duration, is returned. -/
theorem Next_malformed_duration (sys : System) (s : YouTubeTracks) (c : Nat)
    (text : GoString)
    (hp : s.SelectionPointer = (c : Int)) (hlen : c + 1 < s.Selection.length)
    (hdur : s.SelectionDuration[c + 1]? = some text)
    (hbad : Contains (TrimSpace text) ": ".toList = false ∨
      (∃ seg minutes, (Split (TrimSpace text) ": ".toList)[1]? = some seg ∧
        (Split seg ":".toList)[0]? = some minutes ∧ Atoi (utf8 minutes) = none) ∨
      (∃ seg minutes seconds, (Split (TrimSpace text) ": ".toList)[1]? = some seg ∧
        (Split seg ":".toList)[0]? = some minutes ∧
        (Split seg ":".toList)[1]? = some seconds ∧ 2 ≤ (utf8 seconds).length ∧
        Atoi ((utf8 seconds).take 2) = none)) :
    parseLength (TrimSpace text) = some (0, false) ∧
    s.Next sys =
      ({ s with SelectionPointer := ((c + 1 : Nat) : Int) },
        Pull.error (Error.nonStandard ((s.Selection[c + 1]?).bind (·.href)).isSome
          ((s.Selection[c + 1]?).bind (·.title)).isSome (s.SelectionDesc[c + 1]?).isSome
          false)) ∧
    ((s.Next sys).2).duration? = none := by
  have hparse : parseLength (TrimSpace text) = some (0, false) := by
    by_cases hc : Contains (TrimSpace text) ": ".toList = true
    · rcases hbad with h | ⟨seg, minutes, h1, h2, h3⟩ | ⟨seg, minutes, seconds, h1, h2, h3, h4, h5⟩
      · rw [h] at hc; cases hc
      · unfold parseLength
        rw [if_pos hc]
        simp only [h1, h2, h3]
      · unfold parseLength
        rw [if_pos hc]
        simp only [h1, h2, h3]
        cases Atoi (utf8 minutes) with
        | none => rfl
        | some m =>
          have hs : sliceTo (utf8 seconds) 2 = some ((utf8 seconds).take 2) := by
            unfold sliceTo
            rw [if_pos h4]
          simp only [hs, h5]
    · unfold parseLength
      rw [if_neg hc]
  have hnext : s.Next sys =
      ({ s with SelectionPointer := ((c + 1 : Nat) : Int) },
        Pull.error (Error.nonStandard ((s.Selection[c + 1]?).bind (·.href)).isSome
          ((s.Selection[c + 1]?).bind (·.title)).isSome (s.SelectionDesc[c + 1]?).isSome
          false)) := by
    rw [Next_of_cursor sys s c hp hlen, hdur]
    rw [pullEntry_duration_missing sys s.Track _ _ (some text) 0 hparse]
  refine ⟨hparse, hnext, ?_⟩
  rw [hnext]
  rfl

/-- C11 (witness): the entry at position 8, whose duration text is
`Duration: x:45`, with the cursor at 7. -/
theorem Next_malformed_duration_witness :
    parseLength (TrimSpace "Duration: x:45".toList) = some (0, false) ∧
    ((cursorAt oddDoc 7).Next sampleSystem).2.error? =
      some (Error.nonStandard true true true false) :=
  ⟨(Next_malformed_duration sampleSystem (cursorAt oddDoc 7) 7 "Duration: x:45".toList rfl
      (by decide) rfl
      (Or.inr (Or.inl ⟨"x:45".toList, "x".toList, by decide, by decide, by decide⟩))).1,
    (congrArg (fun r => (Prod.snd r).error?)
      (Next_malformed_duration sampleSystem (cursorAt oddDoc 7) 7 "Duration: x:45".toList rfl
        (by decide) rfl
        (Or.inr (Or.inl ⟨"x:45".toList, "x".toList, by decide, by decide, by decide⟩))).2.1).trans
      (by decide)⟩

/-- What a successful run of lines 86-96 has read. -/
theorem parseLength_ok (s : GoString) (len : Int) (h : parseLength s = some (len, true)) :
    ∃ (seg minutes seconds : GoString) (two : List Nat) (m sec : Int),
      (Split s ": ".toList)[1]? = some seg ∧
      (Split seg ":".toList)[0]? = some minutes ∧ Atoi (utf8 minutes) = some m ∧
      (Split seg ":".toList)[1]? = some seconds ∧ sliceTo (utf8 seconds) 2 = some two ∧
      Atoi two = some sec ∧ len = wrapInt (wrapInt (m * 60) + sec) := by
  unfold parseLength at h
  by_cases hc : Contains s ": ".toList = true
  · rw [if_pos hc] at h
    cases h1 : (Split s ": ".toList)[1]? with
    | none => rw [h1] at h; cases h
    | some seg =>
      rw [h1] at h
      simp only [] at h
      cases h2 : (Split seg ":".toList)[0]? with
      | none => rw [h2] at h; cases h
      | some minutes =>
        rw [h2] at h
        simp only [] at h
        cases h3 : Atoi (utf8 minutes) with
        | none => rw [h3] at h; cases h
        | some m =>
          rw [h3] at h
          simp only [] at h
          cases h4 : (Split seg ":".toList)[1]? with
          | none => rw [h4] at h; cases h
          | some seconds =>
            rw [h4] at h
            simp only [] at h
            cases h5 : sliceTo (utf8 seconds) 2 with
            | none => rw [h5] at h; cases h
            | some two =>
              rw [h5] at h
              simp only [] at h
              cases h6 : Atoi two with
              | none => rw [h6] at h; cases h
              | some sec =>
                rw [h6] at h
                simp only [Option.some.injEq, Prod.mk.injEq, and_true] at h
                exact ⟨seg, minutes, seconds, two, m, sec, rfl, h2, h3, h4, h5, h6, h.symm⟩
  · rw [if_neg hc] at h
    cases h

/-- What a candidate returned by lines 73-118 is made of. -/
theorem pullEntry_track (sys : System) (track : Track) (item : Option LinkNode)
    (item_desc item_duration : Option GoString) (t : YouTubeTrack)
    (h : pullEntry sys track item item_desc item_duration = Pull.track t) :
    (∃ text, item_duration = some text ∧
      parseLength (TrimSpace text) = some (t.Duration, true)) ∧
    t.URL = sys.YOUTUBE_VIDEO_PREFIX ++ (item.bind (·.href)).getD [] ∧
    IdFromUrl t.URL = some t.ID := by
  cases hi : itemLength item_duration with
  | none =>
    unfold pullEntry at h
    simp [hi] at h
  | some p =>
    obtain ⟨len, ok⟩ := p
    rw [pullEntry_of_itemLength sys track item item_desc item_duration len ok hi] at h
    split at h
    · cases h
    · rename_i hcomplete
      split at h
      · cases h
      · split at h
        · cases h
        · cases hid : IdFromUrl (sys.YOUTUBE_VIDEO_PREFIX ++ (item.bind (·.href)).getD []) with
          | none => rw [hid] at h; cases h
          | some id =>
            rw [hid] at h
            simp only [Pull.track.injEq] at h
            subst h
            have hok : ok = true := by
              cases ok
              · simp at hcomplete
              · rfl
            subst hok
            refine ⟨?_, rfl, hid⟩
            cases item_duration with
            | none => simp [itemLength] at hi
            | some text => exact ⟨text, rfl, hi⟩

/-- What a candidate returned by `Next` is made of, on any result set. -/
theorem Next_track (sys : System) (s : YouTubeTracks) (t : YouTubeTrack)
    (h : (s.Next sys).2 = Pull.track t) :
    (∃ text, parseLength (TrimSpace text) = some (t.Duration, true) ∧
      text = (SelectionEq s.SelectionDuration (s.SelectionPointer + 1)).getD []) ∧
    (∃ href, t.URL = sys.YOUTUBE_VIDEO_PREFIX ++ href) ∧
    IdFromUrl t.URL = some t.ID := by
  rw [Next_snd] at h
  by_cases hn : s.HasNext = true
  · rw [if_pos hn] at h
    obtain ⟨⟨text, hd, hparse⟩, hurl, hid⟩ := pullEntry_track sys _ _ _ _ t h
    refine ⟨⟨text, hparse, ?_⟩, ⟨_, hurl⟩, hid⟩
    by_cases hlt : s.SelectionPointer + 1 < (s.SelectionDuration.length : Int)
    · rw [if_pos hlt] at hd
      exact (Option.some.inj hd).symm
    · rw [if_neg hlt] at hd
      cases hd
  · rw [if_neg hn] at h
    cases h

/-- C12 (amended): every candidate that `Next` returns has
`Duration = minutes * 60 + seconds` in the wrap-around arithmetic of Go `int`,
for the two integers that `strconv.Atoi` reads from the minutes segment and
from the first two bytes of the seconds segment of the duration text at the
new cursor position (either may carry a sign); whenever both are non-negative
and `minutes * 60 + seconds` does not exceed the largest `int`, the duration
is exactly that number and is non-negative. -/
theorem Next_duration_value (sys : System) (s : YouTubeTracks) (t : YouTubeTrack)
    (h : (s.Next sys).2 = Pull.track t) :
    ∃ (seg minutes seconds : GoString) (two : List Nat) (m sec : Int),
      (Split (TrimSpace ((SelectionEq s.SelectionDuration
        (s.SelectionPointer + 1)).getD [])) ": ".toList)[1]? = some seg ∧
      (Split seg ":".toList)[0]? = some minutes ∧ Atoi (utf8 minutes) = some m ∧
      (Split seg ":".toList)[1]? = some seconds ∧ sliceTo (utf8 seconds) 2 = some two ∧
      Atoi two = some sec ∧
      t.Duration = wrapInt (wrapInt (m * 60) + sec) ∧
      (0 ≤ m → 0 ≤ sec → m * 60 + sec ≤ maxInt →
        t.Duration = m * 60 + sec ∧ 0 ≤ t.Duration) := by
  obtain ⟨⟨text, hparse, htext⟩, _, _⟩ := Next_track sys s t h
  subst htext
  obtain ⟨seg, minutes, seconds, two, m, sec, h1, h2, h3, h4, h5, h6, h7⟩ :=
    parseLength_ok _ _ hparse
  refine ⟨seg, minutes, seconds, two, m, sec, h1, h2, h3, h4, h5, h6, h7, ?_⟩
  intro hm hs hle
  unfold maxInt at hle
  have hw1 : wrapInt (m * 60) = m * 60 := wrapInt_of_range _ (by omega) (by omega)
  have hw2 : wrapInt (m * 60 + sec) = m * 60 + sec :=
    wrapInt_of_range _ (by omega) (by omega)
  rw [h7, hw1, hw2]
  exact ⟨rfl, by omega⟩

/-- C12 (witness): the candidate pulled from position 1 of the sample
document, whose duration text is `- Duration: 3:46.`. -/
theorem Next_duration_value_witness :
    ∃ m sec : Int,
      (226 : Int) = wrapInt (wrapInt (m * 60) + sec) ∧
      (0 ≤ m → 0 ≤ sec → m * 60 + sec ≤ maxInt → (226 : Int) = m * 60 + sec ∧ (0 : Int) ≤ 226) := by
  obtain ⟨_, _, _, _, m, sec, _, _, _, _, _, _, h7, h8⟩ :=
    Next_duration_value sampleSystem (cursorAt sampleDoc 0)
      { Track := sampleTrack
        ID := "abc123".toList
        URL := "https://www.youtube.com/watch?v=abc123".toList
        Title := "Artist - Song".toList
        User := "uploader".toList
        Duration := 226 } rfl
  exact ⟨m, sec, h7, h8⟩

/-- C12 (counterexample): the entry at position 1 has URL, title and uploader
and the duration text `Duration: -1:30`; `strconv.Atoi` reads -1 minutes, and
`Next` returns a candidate with a duration of -30 seconds. -/
theorem Next_negative_duration :
    Atoi (utf8 "-1".toList) = some (-1) ∧
    parseLength "Duration: -1:30".toList = some (-30, true) ∧
    (kthPull sampleSystem 1 (fresh sampleTrack oddDoc)).duration? = some (-30) ∧
    (kthPull sampleSystem 1 (fresh sampleTrack oddDoc)).idURL? =
      some ("abc123".toList, "https://www.youtube.com/watch?v=abc123".toList) ∧
    ¬ ((0 : Int) ≤ -30) := by
  decide

/-- The outcome of `Next` at a cursor `c` with a link entry at `c + 1`, once
the duration block has run without a fault. -/
theorem Next_of_itemLength (sys : System) (s : YouTubeTracks) (c : Nat) (len : Int) (ok : Bool)
    (hp : s.SelectionPointer = (c : Int)) (hlen : c + 1 < s.Selection.length)
    (hdur : itemLength s.SelectionDuration[c + 1]? = some (len, ok)) :
    (s.Next sys).2 =
      if (!(((s.Selection[c + 1]?).bind (·.href)).isSome &&
          ((s.Selection[c + 1]?).bind (·.title)).isSome &&
          (s.SelectionDesc[c + 1]?).isSome && ok)) = true then
        Pull.error (Error.nonStandard ((s.Selection[c + 1]?).bind (·.href)).isSome
          ((s.Selection[c + 1]?).bind (·.title)).isSome (s.SelectionDesc[c + 1]?).isSome ok)
      else if (!Contains (ToLower (((s.Selection[c + 1]?).bind (·.href)).getD []))
            "youtu.be".toList &&
          Contains (ToLower (((s.Selection[c + 1]?).bind (·.href)).getD []))
            "&list=".toList) = true then
        Pull.error (Error.playlistURL (((s.Selection[c + 1]?).bind (·.href)).getD []))
      else if (!Contains (ToLower (((s.Selection[c + 1]?).bind (·.href)).getD []))
            "youtu.be".toList &&
          !Contains (ToLower (((s.Selection[c + 1]?).bind (·.href)).getD []))
            "watch?v=".toList) = true then
        Pull.error (Error.advertisingURL (((s.Selection[c + 1]?).bind (·.href)).getD []))
      else
        match IdFromUrl (sys.YOUTUBE_VIDEO_PREFIX ++
            ((s.Selection[c + 1]?).bind (·.href)).getD []) with
        | none => Pull.fault
        | some id =>
          Pull.track
            { Track := s.Track
              ID := id
              URL := sys.YOUTUBE_VIDEO_PREFIX ++ ((s.Selection[c + 1]?).bind (·.href)).getD []
              Title := ((s.Selection[c + 1]?).bind (·.title)).getD []
              User := match s.SelectionDesc[c + 1]? with
                | none => "UNKNOWN".toList
                | some d => TrimSpace d
              Duration := len } := by
  rw [Next_of_cursor sys s c hp hlen]
  exact pullEntry_of_itemLength sys s.Track _ _ _ len ok hdur

/-- C13 (amended): the two structural rejections come after the check of
completeness, and the playlist rejection comes before the advertising one.
For every entry at the new cursor position whose duration block runs without
a fault: if its URL, in any letter case, does not contain `youtu.be` and
contains `&list=`, then `Next` fails with the playlist-URL error when URL,
title, uploader and duration are all present and well-formed, and with the
malformed-entry error otherwise; if its URL, in any letter case, contains
neither `youtu.be` nor `watch?v=` nor `&list=`, then `Next` fails with the
advertising-URL error when all four are present and well-formed, and with the
malformed-entry error otherwise.  In no case a candidate is returned. -/
theorem Next_rejections_after_completeness (sys : System) (s : YouTubeTracks) (c : Nat)
    (len : Int) (ok : Bool)
    (hp : s.SelectionPointer = (c : Int)) (hlen : c + 1 < s.Selection.length)
    (hdur : itemLength s.SelectionDuration[c + 1]? = some (len, ok)) :
    (Contains (ToLower (((s.Selection[c + 1]?).bind (·.href)).getD [])) "youtu.be".toList
        = false →
      Contains (ToLower (((s.Selection[c + 1]?).bind (·.href)).getD [])) "&list=".toList
        = true →
      (s.Next sys).2 =
        if (((s.Selection[c + 1]?).bind (·.href)).isSome &&
            ((s.Selection[c + 1]?).bind (·.title)).isSome &&
            (s.SelectionDesc[c + 1]?).isSome && ok) = true then
          Pull.error (Error.playlistURL (((s.Selection[c + 1]?).bind (·.href)).getD []))
        else
          Pull.error (Error.nonStandard ((s.Selection[c + 1]?).bind (·.href)).isSome
            ((s.Selection[c + 1]?).bind (·.title)).isSome (s.SelectionDesc[c + 1]?).isSome
            ok)) ∧
    (Contains (ToLower (((s.Selection[c + 1]?).bind (·.href)).getD [])) "youtu.be".toList
        = false →
      Contains (ToLower (((s.Selection[c + 1]?).bind (·.href)).getD [])) "watch?v=".toList
        = false →
      Contains (ToLower (((s.Selection[c + 1]?).bind (·.href)).getD [])) "&list=".toList
        = false →
      (s.Next sys).2 =
        if (((s.Selection[c + 1]?).bind (·.href)).isSome &&
            ((s.Selection[c + 1]?).bind (·.title)).isSome &&
            (s.SelectionDesc[c + 1]?).isSome && ok) = true then
          Pull.error (Error.advertisingURL (((s.Selection[c + 1]?).bind (·.href)).getD []))
        else
          Pull.error (Error.nonStandard ((s.Selection[c + 1]?).bind (·.href)).isSome
            ((s.Selection[c + 1]?).bind (·.title)).isSome (s.SelectionDesc[c + 1]?).isSome
            ok)) ∧
    (Contains (ToLower (((s.Selection[c + 1]?).bind (·.href)).getD [])) "youtu.be".toList
        = false →
      (Contains (ToLower (((s.Selection[c + 1]?).bind (·.href)).getD [])) "&list=".toList
          = true ∨
        Contains (ToLower (((s.Selection[c + 1]?).bind (·.href)).getD [])) "watch?v=".toList
          = false) →
      ((s.Next sys).2).idURL? = none) := by
  have hN := Next_of_itemLength sys s c len ok hp hlen hdur
  revert hN
  generalize (s.Next sys).2 = r
  generalize ((s.Selection[c + 1]?).bind (·.href)).isSome = a
  generalize ((s.Selection[c + 1]?).bind (·.title)).isSome = b
  generalize (s.SelectionDesc[c + 1]?).isSome = d
  generalize ((s.Selection[c + 1]?).bind (·.href)).getD [] = href
  intro hN
  refine ⟨?_, ?_, ?_⟩
  · intro hy hl
    rw [hN, hy, hl]
    cases a <;> cases b <;> cases d <;> cases ok <;> rfl
  · intro hy hw hl
    rw [hN, hy, hw, hl]
    cases a <;> cases b <;> cases d <;> cases ok <;> rfl
  · intro hy hor
    rw [hN, hy]
    rcases hor with hl | hw
    · rw [hl]
      cases a <;> cases b <;> cases d <;> cases ok <;> rfl
    · rw [hw]
      cases a <;> cases b <;> cases d <;> cases ok <;>
        cases Contains (ToLower href) "&list=".toList <;> rfl

/-- C13 (witness): the playlist entry without a title at position 2. -/
theorem Next_rejections_after_completeness_witness :
    ((cursorAt oddDoc 1).Next sampleSystem).2.error? =
      some (Error.nonStandard true false true true) :=
  (congrArg Pull.error?
    ((Next_rejections_after_completeness sampleSystem (cursorAt oddDoc 1) 1 225 true rfl
      (by decide) (by decide)).1 (by decide) (by decide))).trans (by decide)

/-- C13 (counterexample): the entry at position 2 has the URL
`/watch?v=xyz&list=PL1`, which is not a short link and contains `&list=`, and
no title; `Next` fails with the malformed-entry error, not with the
playlist-URL error.  Likewise an entry with the URL `/channel/UC123`, neither
a short link nor a `watch?v=` form, and no title gets the malformed-entry
error, not the advertising-URL error. -/
theorem Next_completeness_before_rejections :
    Contains (ToLower "/watch?v=xyz&list=PL1".toList) "youtu.be".toList = false ∧
    Contains "/watch?v=xyz&list=PL1".toList "&list=".toList = true ∧
    (kthPull sampleSystem 2 (fresh sampleTrack oddDoc)).error? =
      some (Error.nonStandard true false true true) ∧
    (kthPull sampleSystem 2 (fresh sampleTrack oddDoc)).error? ≠
      some (Error.playlistURL "/watch?v=xyz&list=PL1".toList) ∧
    Contains (ToLower "/channel/UC123".toList) "youtu.be".toList = false ∧
    Contains (ToLower "/channel/UC123".toList) "watch?v=".toList = false ∧
    (pullEntry sampleSystem sampleTrack (some ⟨some "/channel/UC123".toList, none⟩)
      (some "uploader".toList) (some "Duration: 3:45".toList)).error? =
      some (Error.nonStandard true false true true) := by
  decide

/-- The result set `cursorAt doc c` is the one that `c` calls of `Next` leave
from a fresh result set, as long as the link view has an entry at `c`. -/
theorem nextN_fresh_cursorAt (sys : System) (doc : Document) (c : Nat)
    (h : c < doc.video.length) : nextN sys c (fresh sampleTrack doc) = cursorAt doc c := by
  rw [nextN_fresh]
  have : min c (doc.video.length - 1) = c := by omega
  rw [this]
  rfl

/-- C14 (amended): for every entry at the new cursor position with all four
fields (URL, title, uploader, duration) present and well-formed: if its URL,
in any letter case, does not contain `youtu.be` and contains `&list=`, `Next`
returns the playlist-URL error; otherwise, if its URL, in any letter case,
contains neither `youtu.be` nor `watch?v=`, `Next` returns the advertising-URL
error; in both cases no candidate is returned. -/
theorem Next_rejects_playlist_then_advertising (sys : System) (s : YouTubeTracks) (c : Nat)
    (href title user text : GoString) (len : Int)
    (hp : s.SelectionPointer = (c : Int))
    (hlink : s.Selection[c + 1]? = some ⟨some href, some title⟩)
    (hdesc : s.SelectionDesc[c + 1]? = some user)
    (hdur : s.SelectionDuration[c + 1]? = some text)
    (hparse : parseLength (TrimSpace text) = some (len, true)) :
    ((Contains (ToLower href) "youtu.be".toList = false ∧
        Contains (ToLower href) "&list=".toList = true) →
      (s.Next sys).2 = Pull.error (Error.playlistURL href) ∧
        ((s.Next sys).2).idURL? = none) ∧
    (¬ (Contains (ToLower href) "youtu.be".toList = false ∧
        Contains (ToLower href) "&list=".toList = true) →
      (Contains (ToLower href) "youtu.be".toList = false ∧
        Contains (ToLower href) "watch?v=".toList = false) →
      (s.Next sys).2 = Pull.error (Error.advertisingURL href) ∧
        ((s.Next sys).2).idURL? = none) := by
  have hlen : c + 1 < s.Selection.length := (List.getElem?_eq_some.1 hlink).1
  have hN := Next_of_itemLength sys s c len true hp hlen (by rw [hdur]; exact hparse)
  rw [hlink, hdesc] at hN
  simp only [Option.some_bind, Option.getD_some, Option.isSome_some, Bool.and_self,
    Bool.not_true, Bool.false_eq_true, if_false] at hN
  constructor
  · rintro ⟨hy, hl⟩
    rw [hN, hy, hl]
    exact ⟨rfl, rfl⟩
  · intro hnot hadv
    obtain ⟨hy, hw⟩ := hadv
    have hl : Contains (ToLower href) "&list=".toList = false := by
      cases hc : Contains (ToLower href) "&list=".toList
      · rfl
      · exact absurd ⟨hy, hc⟩ hnot
    rw [hN, hy, hl, hw]
    exact ⟨rfl, rfl⟩

/-- C14 (witness): the complete playlist entry at position 9. -/
theorem Next_rejects_playlist_then_advertising_witness :
    ((cursorAt oddDoc 8).Next sampleSystem).2.error? =
      some (Error.playlistURL "/watch?v=xyz&list=PL1".toList) :=
  congrArg Pull.error?
    ((Next_rejects_playlist_then_advertising sampleSystem (cursorAt oddDoc 8) 8
      "/watch?v=xyz&list=PL1".toList "A playlist".toList "uploader".toList
      "Duration: 3:45".toList 225 rfl rfl rfl rfl (by decide)).1 ⟨by decide, by decide⟩).1

/-- C14 (counterexample): two complete, well-formed entries.  The URL at
position 12, `/watch?v=abc&list=PL1&x=YOUTU.BE`, does not contain `youtu.be`
and contains `&list=`, yet `Next` returns a candidate, because the lowered URL
contains `youtu.be`.  The URL at position 13, `/results?x=1&LIST=PL1`, contains
neither `&list=` nor `youtu.be` nor `watch?v=`, yet `Next` returns the
playlist-URL error, not the advertising-URL error, because the lowered URL
contains `&list=`. -/
theorem Next_rejections_ignore_letter_case :
    Contains "/watch?v=abc&list=PL1&x=YOUTU.BE".toList "youtu.be".toList = false ∧
    Contains "/watch?v=abc&list=PL1&x=YOUTU.BE".toList "&list=".toList = true ∧
    (((cursorAt oddDoc 11).Next sampleSystem).2).idURL? =
      some ("abc".toList, "https://www.youtube.com/watch?v=abc&list=PL1&x=YOUTU.BE".toList) ∧
    (((cursorAt oddDoc 11).Next sampleSystem).2).error? = none ∧
    Contains "/results?x=1&LIST=PL1".toList "&list=".toList = false ∧
    Contains "/results?x=1&LIST=PL1".toList "youtu.be".toList = false ∧
    Contains "/results?x=1&LIST=PL1".toList "watch?v=".toList = false ∧
    (((cursorAt oddDoc 12).Next sampleSystem).2).error? =
      some (Error.playlistURL "/results?x=1&LIST=PL1".toList) := by
  decide

/-- An incomplete entry whose duration block runs without a fault, in
particular one whose duration view is too short, fails with the
malformed-entry error that names the fields present. -/
theorem Next_incomplete_entry (sys : System) (s : YouTubeTracks) (c : Nat)
    (len : Int) (ok : Bool)
    (hp : s.SelectionPointer = (c : Int)) (hlen : c + 1 < s.Selection.length)
    (hdur : itemLength s.SelectionDuration[c + 1]? = some (len, ok))
    (hmiss : ((s.Selection[c + 1]?).bind (·.href)) = none ∨
      ((s.Selection[c + 1]?).bind (·.title)) = none ∨
      s.SelectionDesc[c + 1]? = none ∨ s.SelectionDuration[c + 1]? = none) :
    (s.Next sys).2 =
      Pull.error (Error.nonStandard ((s.Selection[c + 1]?).bind (·.href)).isSome
        ((s.Selection[c + 1]?).bind (·.title)).isSome (s.SelectionDesc[c + 1]?).isSome ok) := by
  rw [Next_of_itemLength sys s c len ok hp hlen hdur]
  have hincomplete : (((s.Selection[c + 1]?).bind (·.href)).isSome &&
      ((s.Selection[c + 1]?).bind (·.title)).isSome &&
      (s.SelectionDesc[c + 1]?).isSome && ok) = false := by
    rcases hmiss with h | h | h | h
    · rw [h]; rfl
    · rw [h]; simp
    · rw [h]; simp
    · rw [h] at hdur
      have : ok = false := by
        simp only [itemLength, Option.some.injEq, Prod.mk.injEq] at hdur
        exact hdur.2.symm
      rw [this]; simp
  rw [hincomplete]
  rfl

/-- A duration view that is too short never makes the duration block fault. -/
theorem itemLength_none : itemLength none = some (0, false) := rfl

/-- C15 (the code at the failing input): the entry at position 3 lacks the
title attribute, and its duration text is `Duration: 345`; `Next` does not
return the malformed-entry error, it faults, because line 90 indexes
`Split("345", ":")[1]` past the end before the fields are checked. -/
theorem Next_faults_on_incomplete_entry :
    (oddDoc.video[3]?).bind (·.title) = none ∧
    oddDoc.duration[3]? = some "Duration: 345".toList ∧
    (cursorAt oddDoc 2).HasNext = true ∧
    (kthPull sampleSystem 3 (fresh sampleTrack oddDoc)).isFault = true ∧
    (kthPull sampleSystem 3 (fresh sampleTrack oddDoc)).error? = none := by
  decide

/-- C17 (the code at the failing input): the entries at the positions 4 and 7
have all four fields present and well-formed, and their URLs `/WATCH?V=abc123`
and `/channel/youtu.be` survive both rejections; `Next` returns no candidate
for them, it faults, because `IdFromUrl` indexes `Split(url, "watch?v=")[1]`
past the end. -/
theorem Next_faults_on_surviving_URL :
    parseLength (TrimSpace "Duration: 3:45".toList) = some (225, true) ∧
    Contains (ToLower "/WATCH?V=abc123".toList) "watch?v=".toList = true ∧
    Contains (ToLower "/WATCH?V=abc123".toList) "&list=".toList = false ∧
    IdFromUrl (sampleSystem.YOUTUBE_VIDEO_PREFIX ++ "/WATCH?V=abc123".toList) = none ∧
    (kthPull sampleSystem 4 (fresh sampleTrack oddDoc)).isFault = true ∧
    Contains (ToLower "/channel/youtu.be".toList) "youtu.be".toList = true ∧
    IdFromUrl (sampleSystem.YOUTUBE_VIDEO_PREFIX ++ "/channel/youtu.be".toList) = none ∧
    (kthPull sampleSystem 7 (fresh sampleTrack oddDoc)).isFault = true := by
  decide

/-- C18 (the code at the failing input): on the trimmed text `Duration: 345`
the segment after `": "` has no `:` and `Split(..., ":")[1]` is out of range;
on `Duration: 3:4` the seconds have one byte and `[:2]` is out of range.  In
both cases the duration block faults, and so does `Next` on the otherwise
complete entries at the positions 5 and 6. -/
theorem parseLength_faults :
    (Split "345".toList ":".toList).length = 1 ∧
    parseLength "Duration: 345".toList = none ∧
    (Split "3:4".toList ":".toList)[1]? = some "4".toList ∧
    sliceTo (utf8 "4".toList) 2 = none ∧
    parseLength "Duration: 3:4".toList = none ∧
    (kthPull sampleSystem 5 (fresh sampleTrack oddDoc)).isFault = true ∧
    (kthPull sampleSystem 6 (fresh sampleTrack oddDoc)).isFault = true := by
  decide

/-! ## The cursor under any sequence of calls -/

theorem Next_fst (sys : System) (s : YouTubeTracks) :
    (s.Next sys).1 = if s.HasNext = true then s.advance else s := by
  unfold YouTubeTracks.Next
  by_cases h : s.HasNext = true
  · rw [if_pos h, if_pos h]
  · rw [if_neg h, if_neg h]

/-- One call keeps the views, does not move the cursor back, and keeps it
between 0 and the number of link entries. -/
theorem step_cursor (sys : System) (c : Call) (s : YouTubeTracks)
    (h0 : 0 ≤ s.SelectionPointer) (h1 : s.SelectionPointer ≤ (s.Selection.length : Int)) :
    (step sys c s).Selection = s.Selection ∧
    s.SelectionPointer ≤ (step sys c s).SelectionPointer ∧
    0 ≤ (step sys c s).SelectionPointer ∧
    (step sys c s).SelectionPointer ≤ ((step sys c s).Selection.length : Int) := by
  cases c with
  | hasNext => exact ⟨rfl, Int.le_refl _, h0, h1⟩
  | next =>
    show ((s.Next sys).1).Selection = s.Selection ∧
      s.SelectionPointer ≤ ((s.Next sys).1).SelectionPointer ∧
      0 ≤ ((s.Next sys).1).SelectionPointer ∧
      ((s.Next sys).1).SelectionPointer ≤ (((s.Next sys).1).Selection.length : Int)
    rw [Next_fst]
    by_cases hn : s.HasNext = true
    · rw [if_pos hn]
      have hlt := (HasNext_iff s).1 hn
      show s.Selection = s.Selection ∧ s.SelectionPointer ≤ s.SelectionPointer + 1 ∧
        0 ≤ s.SelectionPointer + 1 ∧ s.SelectionPointer + 1 ≤ (s.Selection.length : Int)
      exact ⟨rfl, by omega, by omega, by omega⟩
    · rw [if_neg hn]
      exact ⟨rfl, Int.le_refl _, h0, h1⟩

theorem run_append (sys : System) (a b : List Call) (s : YouTubeTracks) :
    run sys (a ++ b) s = run sys b (run sys a s) := by
  induction a generalizing s with
  | nil => rfl
  | cons c a ih => exact ih (step sys c s)

theorem run_cursor (sys : System) (calls : List Call) (s : YouTubeTracks)
    (h0 : 0 ≤ s.SelectionPointer) (h1 : s.SelectionPointer ≤ (s.Selection.length : Int)) :
    (run sys calls s).Selection = s.Selection ∧
    s.SelectionPointer ≤ (run sys calls s).SelectionPointer ∧
    (run sys calls s).SelectionPointer ≤ (s.Selection.length : Int) := by
  induction calls generalizing s with
  | nil => exact ⟨rfl, Int.le_refl _, h1⟩
  | cons c cs ih =>
    obtain ⟨hs, hm, hz, hb⟩ := step_cursor sys c s h0 h1
    obtain ⟨hs2, hm2, hb2⟩ := ih (step sys c s) hz hb
    show (run sys cs (step sys c s)).Selection = s.Selection ∧
      s.SelectionPointer ≤ (run sys cs (step sys c s)).SelectionPointer ∧
      (run sys cs (step sys c s)).SelectionPointer ≤ (s.Selection.length : Int)
    rw [hs] at hs2 hb2
    exact ⟨hs2, Int.le_trans hm hm2, hb2⟩

/-- C16: for every result set reached from a fresh one (cursor 0) by any
sequence of `HasNext` and `Next` calls, the cursor is at least 0 and at most
the number of link entries, the link view is unchanged, and every further
call, `HasNext` or `Next`, leaves the cursor greater than or equal to its
previous value; so along any sequence of calls the cursor never decreases. -/
theorem cursor_invariant (sys : System) (track : Track) (doc : Document) (calls : List Call) :
    (fresh track doc).SelectionPointer = 0 ∧
    0 ≤ (run sys calls (fresh track doc)).SelectionPointer ∧
    (run sys calls (fresh track doc)).SelectionPointer ≤ (doc.video.length : Int) ∧
    (run sys calls (fresh track doc)).Selection = doc.video ∧
    (∀ c : Call, (run sys calls (fresh track doc)).SelectionPointer ≤
      (step sys c (run sys calls (fresh track doc))).SelectionPointer) ∧
    (∀ c : Call, (run sys calls (fresh track doc)).SelectionPointer ≤
      (run sys (calls ++ [c]) (fresh track doc)).SelectionPointer) := by
  have h0 : (0 : Int) ≤ (fresh track doc).SelectionPointer := Int.le_refl _
  have h1 : (fresh track doc).SelectionPointer ≤ ((fresh track doc).Selection.length : Int) := by
    show (0 : Int) ≤ (doc.video.length : Int)
    omega
  obtain ⟨hs, hm, hb⟩ := run_cursor sys calls (fresh track doc) h0 h1
  have hstep : ∀ c : Call, (run sys calls (fresh track doc)).SelectionPointer ≤
      (step sys c (run sys calls (fresh track doc))).SelectionPointer := by
    intro c
    exact (step_cursor sys c _ (Int.le_trans h0 hm) (by rw [hs]; exact hb)).2.1
  refine ⟨rfl, Int.le_trans h0 hm, hb, hs, hstep, ?_⟩
  intro c
  rw [run_append]
  exact hstep c

/-! ## The identifier -/

theorem firstPiece_isPrefix (s p : GoString) : firstPiece s p <+: s := by
  unfold firstPiece
  cases Index s p with
  | none => exact List.prefix_refl s
  | some m => exact List.take_prefix m s

theorem firstPiece_cons (c : Char) (cs p : GoString) (h : HasPrefix (c :: cs) p = false) :
    firstPiece (c :: cs) p = c :: firstPiece cs p := by
  unfold firstPiece
  rw [Index_cons, h]
  cases Index cs p <;> rfl

/-- The piece before the first occurrence of a non-empty needle does not
contain the needle. -/
theorem Contains_firstPiece (s p : GoString) (hp : p ≠ []) :
    Contains (firstPiece s p) p = false := by
  induction s with
  | nil =>
    unfold firstPiece
    rw [Index_nil_of_ne_nil p hp]
    rw [← Index_none_iff]
    exact Index_nil_of_ne_nil p hp
  | cons c cs ih =>
    by_cases h : HasPrefix (c :: cs) p = true
    · rw [firstPiece_of_HasPrefix _ _ h, ← Index_none_iff]
      exact Index_nil_of_ne_nil p hp
    · have hf : HasPrefix (c :: cs) p = false := by
        cases hx : HasPrefix (c :: cs) p
        · rfl
        · exact absurd hx h
      rw [firstPiece_cons c cs p hf, Contains_false_iff, List.infix_cons_iff]
      rintro (hpre | hin)
      · apply h
        rw [HasPrefix_iff]
        exact List.IsPrefix.trans hpre
          ((List.prefix_cons_inj c).2 (firstPiece_isPrefix cs p))
      · exact (Contains_false_iff _ _).1 ih hin

theorem Contains_false_of_piece (a b p : GoString) (hab : a <:+: b)
    (h : Contains b p = false) : Contains a p = false := by
  rw [Contains_false_iff] at h ⊢
  exact fun hi => h (List.IsInfix.trans hi hab)

/-- Lines 157-163: the result has no `?` and no `&list`, and starts `id_part`. -/
theorem truncateId_result (x id : GoString) (h : truncateId x = some id) :
    Contains id "?".toList = false ∧ Contains id "&list".toList = false ∧ id <+: x := by
  unfold truncateId at h
  have hcut : ∃ y, (if Contains x "?".toList = true then (Split x "?".toList)[0]?
      else some x) = some y ∧ Contains y "?".toList = false ∧ y <+: x := by
    by_cases hq : Contains x "?".toList = true
    · rw [if_pos hq, Split_zero _ _ (by decide)]
      exact ⟨_, rfl, Contains_firstPiece x _ (by decide), firstPiece_isPrefix x _⟩
    · rw [if_neg hq]
      refine ⟨x, rfl, ?_, List.prefix_refl x⟩
      cases hx : Contains x "?".toList
      · rfl
      · exact absurd hx hq
  obtain ⟨y, hy, hyq, hyx⟩ := hcut
  simp only [] at h
  rw [hy] at h
  simp only [] at h
  by_cases hl : Contains y "&list".toList = true
  · rw [if_pos hl, Split_zero _ _ (by decide)] at h
    have hid := Option.some.inj h
    subst hid
    exact ⟨Contains_false_of_piece _ y _ (firstPiece_isPrefix y _).isInfix hyq,
      Contains_firstPiece y _ (by decide),
      List.IsPrefix.trans (firstPiece_isPrefix y _) hyx⟩
  · rw [if_neg hl] at h
    have hid := Option.some.inj h
    subst hid
    refine ⟨hyq, ?_, hyx⟩
    cases hx : Contains y "&list".toList
    · rfl
    · exact absurd hx hl

/-- The second element of a split is a contiguous piece of the text, and the
separator occurs in the text. -/
theorem Split_one_some (s sep x : GoString) (hsep : sep ≠ [])
    (h : (Split s sep)[1]? = some x) : x <:+: s ∧ Contains s sep = true := by
  rw [Split_one s sep hsep] at h
  cases hi : Index s sep with
  | none => rw [hi] at h; cases h
  | some m =>
    rw [hi] at h
    simp only [Option.map_some', Option.some.injEq] at h
    subst h
    constructor
    · exact List.IsInfix.trans (firstPiece_isPrefix _ _).isInfix
        (List.drop_suffix _ s).isInfix
    · unfold Contains
      rw [hi]
      rfl

/-- C19: for every URL on which `IdFromUrl` is defined, the returned
identifier contains no `?` character and no `&list` substring, and it is a
contiguous substring of the input URL. -/
theorem IdFromUrl_result (url id : GoString) (h : IdFromUrl url = some id) :
    '?' ∉ id ∧ Contains id "?".toList = false ∧ Contains id "&list".toList = false ∧
      id <:+: url ∧ (∃ before after, url = before ++ id ++ after) := by
  unfold IdFromUrl at h
  have hpart : ∃ x, x <:+: url ∧ truncateId x = some id := by
    by_cases hy : Contains (ToLower url) "youtu.be/".toList = true
    · rw [if_pos hy] at h
      cases hs : (Split url "youtu.be/".toList)[1]? with
      | none => rw [hs] at h; cases h
      | some x =>
        rw [hs] at h
        exact ⟨x, (Split_one_some url _ x (by decide) hs).1, h⟩
    · rw [if_neg hy] at h
      cases hs : (Split url "watch?v=".toList)[1]? with
      | none => rw [hs] at h; cases h
      | some x =>
        rw [hs] at h
        exact ⟨x, (Split_one_some url _ x (by decide) hs).1, h⟩
  obtain ⟨x, hx, ht⟩ := hpart
  obtain ⟨h1, h2, h3⟩ := truncateId_result x id ht
  have hin : id <:+: url := List.IsInfix.trans h3.isInfix hx
  refine ⟨not_mem_of_Contains_single id '?' h1, h1, h2, hin, ?_⟩
  obtain ⟨a, b, hab⟩ := hin
  exact ⟨a, b, hab.symm⟩

/-- C19 (witness): a watch URL with a playlist part. -/
theorem IdFromUrl_result_witness :
    Contains "abc123".toList "?".toList = false ∧
    Contains "abc123".toList "&list".toList = false ∧
    "abc123".toList <:+: "https://www.youtube.com/watch?v=abc123&list=PL1?t=3".toList :=
  ⟨(IdFromUrl_result "https://www.youtube.com/watch?v=abc123&list=PL1?t=3".toList
      "abc123".toList (by decide)).2.1,
    (IdFromUrl_result "https://www.youtube.com/watch?v=abc123&list=PL1?t=3".toList
      "abc123".toList (by decide)).2.2.1,
    (IdFromUrl_result "https://www.youtube.com/watch?v=abc123&list=PL1?t=3".toList
      "abc123".toList (by decide)).2.2.2.1⟩

/-- A URL on which `IdFromUrl` is defined is accepted by `ValidateURL`. -/
theorem ValidateURL_of_IdFromUrl (url id : GoString) (h : IdFromUrl url = some id) :
    ValidateURL url = none := by
  unfold ValidateURL
  by_cases hy : Contains (ToLower url) "youtu.be/".toList = true
  · rw [hy]; rfl
  · unfold IdFromUrl at h
    rw [if_neg hy] at h
    cases hs : (Split url "watch?v=".toList)[1]? with
    | none => rw [hs] at h; cases h
    | some x =>
      have hc := (Split_one_some url _ x (by decide) hs).2
      have hl : Contains (ToLower url) "watch?v=".toList = true :=
        Contains_ToLower url "watch?v=".toList hc
      rw [hl]
      simp

/-- C20: for every result set, if `Next` yields a candidate without error or
fault, then `ValidateURL` returns no error on the URL of the candidate; the
URL is `YOUTUBE_VIDEO_PREFIX` followed by the `href` of the entry, and the
identifier of the candidate is `IdFromUrl` of that URL. -/
theorem Next_candidate_URL_valid (sys : System) (s : YouTubeTracks) (t : YouTubeTrack)
    (h : (s.Next sys).2 = Pull.track t) :
    ValidateURL t.URL = none ∧ IdFromUrl t.URL = some t.ID ∧
      (∃ href, t.URL = sys.YOUTUBE_VIDEO_PREFIX ++ href) := by
  obtain ⟨_, hurl, hid⟩ := Next_track sys s t h
  exact ⟨ValidateURL_of_IdFromUrl t.URL t.ID hid, hid, hurl⟩

/-- C20 (witness): the candidate pulled from position 1 of the sample
document. -/
theorem Next_candidate_URL_valid_witness :
    ValidateURL "https://www.youtube.com/watch?v=abc123".toList = none :=
  (Next_candidate_URL_valid sampleSystem (cursorAt sampleDoc 0)
    { Track := sampleTrack
      ID := "abc123".toList
      URL := "https://www.youtube.com/watch?v=abc123".toList
      Title := "Artist - Song".toList
      User := "uploader".toList
      Duration := 226 } rfl).1

end Youtube
